import Mathlib

/-!
Shallow embedding of the amortization engine of the `housing` repository
(`src/utils/calculations.py` and `src/housing.py`).  Python floats are
modelled as rationals (`ℚ`); Python lists of per-period values are modelled
as Lean lists of period-record structures; a `raise` is modelled with
`Except`/an error constructor; the unbounded `while` loops are modelled with
explicit fuel so that non-termination is observable as running out of fuel.
-/

namespace Calculations

/-- Gregorian leap-year test, as used by Python's `calendar.monthrange`. -/
def isLeapYear (y : Int) : Bool :=
  (y % 4 == 0 && y % 100 != 0) || (y % 400 == 0)

/-- Number of days in a calendar month, `calendar.monthrange(year, month)[1]`.
The engine only ever calls this with `month ∈ 1..12`. -/
def daysInMonth (y : Int) (m : Nat) : Nat :=
  if m = 1 then 31
  else if m = 2 then (if isLeapYear y then 29 else 28)
  else if m = 3 then 31
  else if m = 4 then 30
  else if m = 5 then 31
  else if m = 6 then 30
  else if m = 7 then 31
  else if m = 8 then 31
  else if m = 9 then 30
  else if m = 10 then 31
  else if m = 11 then 30
  else 31

/-- Calendar advance used at the end of every loop body:
`if month == 12: month = 1; year += 1 else: month += 1`. -/
def advanceCalendar (y : Int) (m : Nat) : Int × Nat :=
  if m = 12 then (y + 1, 1) else (y, m + 1)

/-- Embedding of `calculate_monthly_payment` from `src/utils/calculations.py` (lines 200-222):
the standard annuity payment formula. -/
def calculate_monthly_payment (principal annual_rate : ℚ) (years : Nat) : ℚ :=
  if annual_rate = 0 then principal / ((years : ℚ) * 12)
  else
    let monthly_rate := annual_rate / 12
    let num_payments := years * 12
    principal * (monthly_rate * (1 + monthly_rate) ^ num_payments) /
      ((1 + monthly_rate) ^ num_payments - 1)

/-- The `top_up_params` dictionary of `src/utils/calculations.py`:
a `strategy` string together with an `amount`.  `noStrategy` is the
`strategy == "none"` case. -/
inductive TopUpStrategy where
  | noStrategy : TopUpStrategy
  | fixed : ℚ → TopUpStrategy
  | additional : ℚ → TopUpStrategy
  | percentage : ℚ → TopUpStrategy
deriving Repr, DecidableEq

/-- Embedding of `calculate_top_up_amount` from `src/utils/calculations.py` (lines 224-242).
`Option.none` is Python `top_up_params = None`. -/
def calculate_top_up_amount (base_payment : ℚ) (top_up_params : Option TopUpStrategy) : ℚ :=
  match top_up_params with
  | Option.none => 0
  | some TopUpStrategy.noStrategy => 0
  | some (TopUpStrategy.fixed amount) => max 0 (amount - base_payment)
  | some (TopUpStrategy.additional amount) => amount
  | some (TopUpStrategy.percentage amount) => base_payment * (amount / 100)

/-- The per-period principal split shared verbatim by all four schedule
variants (`calculations.py` lines 42-46, 151-155, 288-292, 388-391):
zero principal when the available payment does not cover interest, else
the lesser of the remaining balance and the surplus over interest. -/
def principalPaymentOf (balance total_available_payment interest_payment : ℚ) : ℚ :=
  if total_available_payment ≤ interest_payment then 0
  else if balance ≤ total_available_payment - interest_payment then balance
  else total_available_payment - interest_payment

/-- Result of running a possibly unbounded schedule loop with fuel:
normal completion, a raised exception, or fuel exhausted (the Python
loop would still be running). -/
inductive RunResult (α : Type) where
  | ok : List α → RunResult α
  | err : String → RunResult α
  | fuelOut : RunResult α
deriving Repr, DecidableEq

/-! ## Embedding of `calculate_loan_schedule_simple` (lines 7-87) -/

/-- Mutable state of the `calculate_loan_schedule_simple` loop. -/
structure SimpleState where
  year : Int
  month : Nat
  balance : ℚ
  period : Nat
deriving Repr, DecidableEq

/-- One row of the simple schedule (one appended element of each list). -/
structure SimpleRec where
  starting_principal_balance : ℚ
  principal_payment : ℚ
  interest_payment : ℚ
  total_payment : ℚ
  add_on : ℚ
  remaining_principal_balance : ℚ
  year : Int
  month : Nat
deriving Repr, DecidableEq

/-- One iteration of the `calculate_loan_schedule_simple` loop body
(lines 23-66).  Note the source advances the calendar (lines 51-55)
BEFORE appending `year`/`month` to the row (lines 61-62), so the emitted
row carries the already-advanced calendar.  The balance check of lines
64-66 raises only from the second row on (`len(...) > 1`). -/
def simpleStep (interest_pct monthly_payment yearly_add_on : ℚ) (s : SimpleState) :
    Except String (SimpleRec × SimpleState) :=
  let period := s.period + 1
  let interest_payment := s.balance * interest_pct * (daysInMonth s.year s.month : ℚ) / 365
  let add_on : ℚ := if period % 12 = 0 then yearly_add_on else 0
  let total_available_payment := monthly_payment + add_on
  let principal_payment := principalPaymentOf s.balance total_available_payment interest_payment
  let newBalance := s.balance - principal_payment
  let ym := advanceCalendar s.year s.month
  let row : SimpleRec :=
    { starting_principal_balance := s.balance
      principal_payment := principal_payment
      interest_payment := interest_payment
      total_payment := principal_payment + interest_payment + add_on
      add_on := add_on
      remaining_principal_balance := newBalance
      year := ym.1
      month := ym.2 }
  if 1 ≤ s.period ∧ s.balance < newBalance then
    Except.error "Remaining balance is not decreasing, something is wrong"
  else
    Except.ok (row, { year := ym.1, month := ym.2, balance := newBalance, period := period })

/-- The `while left_principal_balance > 0` loop of
`calculate_loan_schedule_simple`, with explicit fuel. -/
def simpleLoop (interest_pct monthly_payment yearly_add_on : ℚ) :
    Nat → SimpleState → RunResult SimpleRec
  | 0, s => if 0 < s.balance then RunResult.fuelOut else RunResult.ok []
  | fuel + 1, s =>
    if 0 < s.balance then
      match simpleStep interest_pct monthly_payment yearly_add_on s with
      | Except.error e => RunResult.err e
      | Except.ok (row, s') =>
        match simpleLoop interest_pct monthly_payment yearly_add_on fuel s' with
        | RunResult.ok rows => RunResult.ok (row :: rows)
        | RunResult.err e => RunResult.err e
        | RunResult.fuelOut => RunResult.fuelOut
    else RunResult.ok []

/-- Embedding of `calculate_loan_schedule_simple(start_year, start_month, debt, interest_pct,
monthly_payment, yearly_add_on)`, run with the given fuel. -/
def calculate_loan_schedule_simple (start_year : Int) (start_month : Nat)
    (debt interest_pct monthly_payment yearly_add_on : ℚ) (fuel : Nat) :
    RunResult SimpleRec :=
  simpleLoop interest_pct monthly_payment yearly_add_on fuel
    { year := start_year, month := start_month, balance := debt, period := 0 }

/-! ## Embedding of `calculate_loan_schedule_variable_rates` (lines 89-198) -/

/-- Lookup in the per-loan-year dictionaries: Python
`dict[loan_year] if loan_year in dict else dict["onwards"]`
(`get_interest_rate_for_loan_year` / `get_monthly_payment_for_loan_year`,
lines 109-123). -/
def dictGet (d : List (Nat × ℚ)) (onwards : ℚ) (loan_year : Nat) : ℚ :=
  (d.lookup loan_year).getD onwards

/-- Mutable state of the `calculate_loan_schedule_variable_rates` loop. -/
structure VarState where
  year : Int
  month : Nat
  balance : ℚ
  period : Nat
  loan_year : Nat
deriving Repr, DecidableEq

/-- One row of the variable-rates schedule. -/
structure VarRec where
  starting_principal_balance : ℚ
  principal_payment : ℚ
  interest_payment : ℚ
  total_payment : ℚ
  add_on : ℚ
  remaining_principal_balance : ℚ
  year : Int
  month : Nat
  applied_rate : ℚ
  applied_payment : ℚ
deriving Repr, DecidableEq

/-- One iteration of the `calculate_loan_schedule_variable_rates` loop body
(lines 125-175).  Here the row's `year`/`month` are appended (lines 164-165)
BEFORE the calendar advance (lines 167-171), so the row carries the
calendar of its own period.  `loan_year` increments inside the period-12
branch (line 144), taking effect from the next period. -/
def varStep (interest_rates_dict monthly_payments_dict : List (Nat × ℚ))
    (rates_onwards payments_onwards yearly_add_on : ℚ) (s : VarState) :
    Except String (VarRec × VarState) :=
  let period := s.period + 1
  let current_interest_rate := dictGet interest_rates_dict rates_onwards s.loan_year
  let current_monthly_payment := dictGet monthly_payments_dict payments_onwards s.loan_year
  let interest_payment :=
    s.balance * current_interest_rate * (daysInMonth s.year s.month : ℚ) / 365
  let add_on : ℚ := if period % 12 = 0 then yearly_add_on else 0
  let new_loan_year : Nat := if period % 12 = 0 then s.loan_year + 1 else s.loan_year
  let total_available_payment := current_monthly_payment + add_on
  let principal_payment := principalPaymentOf s.balance total_available_payment interest_payment
  let newBalance := s.balance - principal_payment
  let row : VarRec :=
    { starting_principal_balance := s.balance
      principal_payment := principal_payment
      interest_payment := interest_payment
      total_payment := principal_payment + interest_payment + add_on
      add_on := add_on
      remaining_principal_balance := newBalance
      year := s.year
      month := s.month
      applied_rate := current_interest_rate * 100
      applied_payment := current_monthly_payment }
  let ym := advanceCalendar s.year s.month
  if 1 ≤ s.period ∧ s.balance < newBalance then
    Except.error "Remaining balance is not decreasing, something is wrong"
  else
    Except.ok (row,
      { year := ym.1, month := ym.2, balance := newBalance, period := period,
        loan_year := new_loan_year })

/-- The `while left_principal_balance > 0` loop of
`calculate_loan_schedule_variable_rates`, with explicit fuel. -/
def varLoop (interest_rates_dict monthly_payments_dict : List (Nat × ℚ))
    (rates_onwards payments_onwards yearly_add_on : ℚ) :
    Nat → VarState → RunResult VarRec
  | 0, s => if 0 < s.balance then RunResult.fuelOut else RunResult.ok []
  | fuel + 1, s =>
    if 0 < s.balance then
      match varStep interest_rates_dict monthly_payments_dict rates_onwards
          payments_onwards yearly_add_on s with
      | Except.error e => RunResult.err e
      | Except.ok (row, s') =>
        match varLoop interest_rates_dict monthly_payments_dict rates_onwards
            payments_onwards yearly_add_on fuel s' with
        | RunResult.ok rows => RunResult.ok (row :: rows)
        | RunResult.err e => RunResult.err e
        | RunResult.fuelOut => RunResult.fuelOut
    else RunResult.ok []

/-- Embedding of `calculate_loan_schedule_variable_rates(start_year, start_month, debt,
interest_rates_dict, monthly_payments_dict, yearly_add_on)`, run with
the given fuel. -/
def calculate_loan_schedule_variable_rates (start_year : Int) (start_month : Nat)
    (debt : ℚ) (interest_rates_dict monthly_payments_dict : List (Nat × ℚ))
    (rates_onwards payments_onwards yearly_add_on : ℚ) (fuel : Nat) :
    RunResult VarRec :=
  varLoop interest_rates_dict monthly_payments_dict rates_onwards payments_onwards
    yearly_add_on fuel
    { year := start_year, month := start_month, balance := debt, period := 0,
      loan_year := 1 }

/-! ## Embedding of `calculate_standard_mortgage_schedule` (lines 244-336) -/

/-- Mutable state of the `calculate_standard_mortgage_schedule` loop. -/
structure MortState where
  year : Int
  month : Nat
  balance : ℚ
  period : Nat
deriving Repr, DecidableEq

/-- One row of the standard-mortgage schedule. -/
structure MortRec where
  starting_principal_balance : ℚ
  principal_payment : ℚ
  interest_payment : ℚ
  total_payment : ℚ
  add_on : ℚ
  top_up : ℚ
  remaining_principal_balance : ℚ
  year : Int
  month : Nat
  calculated_payment : ℚ
deriving Repr, DecidableEq

/-- One iteration of the `calculate_standard_mortgage_schedule` loop body
(lines 265-313).  Interest uses the monthly-rate convention
`balance * (annual_rate / 12)` (lines 272-273); the row's `year`/`month`
are appended before the calendar advance (lines 302-309). -/
def mortStep (annual_rate monthly_payment yearly_add_on : ℚ)
    (top_up_params : Option TopUpStrategy) (s : MortState) :
    Except String (MortRec × MortState) :=
  let period := s.period + 1
  let monthly_rate := annual_rate / 12
  let interest_payment := s.balance * monthly_rate
  let add_on : ℚ := if period % 12 = 0 then yearly_add_on else 0
  let top_up_amount := calculate_top_up_amount monthly_payment top_up_params
  let total_available_payment := monthly_payment + top_up_amount + add_on
  let principal_payment := principalPaymentOf s.balance total_available_payment interest_payment
  let newBalance := s.balance - principal_payment
  let row : MortRec :=
    { starting_principal_balance := s.balance
      principal_payment := principal_payment
      interest_payment := interest_payment
      total_payment := principal_payment + interest_payment + add_on + top_up_amount
      add_on := add_on
      top_up := top_up_amount
      remaining_principal_balance := newBalance
      year := s.year
      month := s.month
      calculated_payment := monthly_payment }
  let ym := advanceCalendar s.year s.month
  if 1 ≤ s.period ∧ s.balance < newBalance then
    Except.error "Remaining balance is not decreasing, something is wrong"
  else
    Except.ok (row, { year := ym.1, month := ym.2, balance := newBalance, period := period })

/-- The `while left_principal_balance > 0 and period < years * 12` loop of
`calculate_standard_mortgage_schedule`.  The recursion variable `left` is
`years*12 - period`, so the loop is structurally bounded by the term cap. -/
def mortgageLoop (annual_rate monthly_payment yearly_add_on : ℚ)
    (top_up_params : Option TopUpStrategy) :
    Nat → MortState → Except String (List MortRec × MortState)
  | 0, s => Except.ok ([], s)
  | left + 1, s =>
    if 0 < s.balance then
      match mortStep annual_rate monthly_payment yearly_add_on top_up_params s with
      | Except.error e => Except.error e
      | Except.ok (row, s') =>
        match mortgageLoop annual_rate monthly_payment yearly_add_on top_up_params left s' with
        | Except.error e => Except.error e
        | Except.ok (rows, sEnd) => Except.ok (row :: rows, sEnd)
    else Except.ok ([], s)

/-- Embedding of `calculate_standard_mortgage_schedule(start_year, start_month, debt,
annual_rate, years, yearly_add_on, top_up_params)`: returns the schedule
rows and the single frozen monthly payment. -/
def calculate_standard_mortgage_schedule (start_year : Int) (start_month : Nat)
    (debt annual_rate : ℚ) (years : Nat) (yearly_add_on : ℚ)
    (top_up_params : Option TopUpStrategy) :
    Except String (List MortRec × ℚ) :=
  let monthly_payment := calculate_monthly_payment debt annual_rate years
  match mortgageLoop annual_rate monthly_payment yearly_add_on top_up_params (years * 12)
      { year := start_year, month := start_month, balance := debt, period := 0 } with
  | Except.error e => Except.error e
  | Except.ok (rows, _) => Except.ok (rows, monthly_payment)

/-! ## Embedding of `calculate_variable_rate_mortgage_schedule` (lines 338-442) -/

/-- One row of the variable-rate mortgage schedule (the `month_info`
dictionary of lines 394-406). -/
structure VMRec where
  year : Int
  month : Nat
  payment_number : Nat
  interest_rate : ℚ
  monthly_payment : ℚ
  interest_paid : ℚ
  principal_paid : ℚ
  starting_balance : ℚ
  ending_balance : ℚ
  add_on : ℚ
  top_up : ℚ
deriving Repr, DecidableEq

/-- The inner `for month_in_year in range(12)` loop of
`calculate_variable_rate_mortgage_schedule` (lines 366-414), returning the
emitted rows and the final `remaining_balance`.  The row is appended with
`ending_balance = remaining_balance - principal_payment` BEFORE the epsilon
check of lines 412-414, which zeroes the loop balance (not the row) and
breaks once it falls to `0.01` or below.  Note the source mutates `cal_year`
every month whose `month_in_year + start_month` exceeds 12 (lines 371-374),
which the recursion reproduces by threading `cal_year` through. -/
def vmMonths (start_month : Nat) (loan_year : Nat)
    (current_rate monthly_payment yearly_add_on : ℚ)
    (top_up_params : Option TopUpStrategy) :
    Nat → Nat → Int → ℚ → List VMRec × ℚ
  | _, 0, _, remaining_balance => ([], remaining_balance)
  | month_in_year, left + 1, cal_year, remaining_balance =>
    if remaining_balance ≤ 0 then ([], remaining_balance)
    else
      let cm := month_in_year + start_month
      let ymc : Nat × Int := if 12 < cm then (cm - 12, cal_year + 1) else (cm, cal_year)
      let cal_month := ymc.1
      let cal_year' := ymc.2
      let monthly_rate := current_rate / 12
      let interest_payment := remaining_balance * monthly_rate
      let add_on : ℚ := if month_in_year = 11 then yearly_add_on else 0
      let top_up_amount := calculate_top_up_amount monthly_payment top_up_params
      let total_available_payment := monthly_payment + top_up_amount + add_on
      let principal_payment :=
        principalPaymentOf remaining_balance total_available_payment interest_payment
      let row : VMRec :=
        { year := cal_year'
          month := cal_month
          payment_number := (loan_year - 1) * 12 + month_in_year + 1
          interest_rate := current_rate
          monthly_payment := monthly_payment
          interest_paid := interest_payment
          principal_paid := principal_payment
          starting_balance := remaining_balance
          ending_balance := remaining_balance - principal_payment
          add_on := add_on
          top_up := top_up_amount }
      let newBalance := remaining_balance - principal_payment
      if newBalance ≤ 1 / 100 then ([row], 0)
      else
        let rest := vmMonths start_month loan_year current_rate monthly_payment
          yearly_add_on top_up_params (month_in_year + 1) left cal_year' newBalance
        (row :: rest.1, rest.2)

/-- The outer `for loan_year in range(1, years + 1)` loop of
`calculate_variable_rate_mortgage_schedule` (lines 348-417): loan-years 1-5
use rate indices 0-4, loan-year 6 onwards clamps to index 5; the monthly
payment is recomputed from the current remaining balance and the remaining
years at the top of every loan-year (line 359). -/
def vmYears (start_year : Int) (start_month : Nat) (interest_rates_list : List ℚ)
    (years : Nat) (yearly_add_on : ℚ) (top_up_params : Option TopUpStrategy) :
    Nat → Nat → ℚ → List VMRec
  | _, 0, _ => []
  | loan_year, left + 1, remaining_balance =>
    let rate_index := if loan_year ≤ 5 then loan_year - 1 else 5
    let current_rate := interest_rates_list.getD rate_index 0
    let remaining_years := years - loan_year + 1
    let monthly_payment := calculate_monthly_payment remaining_balance current_rate remaining_years
    let cal_year : Int := start_year + (loan_year : Int) - 1
    let yr := vmMonths start_month loan_year current_rate monthly_payment yearly_add_on
      top_up_params 0 12 cal_year remaining_balance
    if yr.2 ≤ 0 then yr.1
    else yr.1 ++ vmYears start_year start_month interest_rates_list years yearly_add_on
      top_up_params (loan_year + 1) left yr.2

/-- Embedding of `calculate_variable_rate_mortgage_schedule(start_year, start_month, debt,
interest_rates_list, years, yearly_add_on, top_up_params)` including the
length-6 validation of lines 341-342. -/
def calculate_variable_rate_mortgage_schedule (start_year : Int) (start_month : Nat)
    (debt : ℚ) (interest_rates_list : List ℚ) (years : Nat) (yearly_add_on : ℚ)
    (top_up_params : Option TopUpStrategy) :
    Except String (List VMRec) :=
  if interest_rates_list.length ≠ 6 then
    Except.error "Must provide exactly 6 interest rates for years 1,2,3,4,5,6+"
  else
    Except.ok (vmYears start_year start_month interest_rates_list years yearly_add_on
      top_up_params 1 years debt)

end Calculations

namespace HousingApp

/-- The `top_up_params` dictionary of `src/housing.py`: the combined
minimum-payment + additional-amount strategy. -/
structure TopUpParams where
  minimum_payment : ℚ
  additional_amount : ℚ
deriving Repr, DecidableEq

/-- Embedding of `calculate_top_up_amount` from `src/housing.py` (lines 44-56):
effective payment is `max(base_payment, minimum_payment) + additional_amount`
and the top-up is its excess over the base payment. -/
def calculate_top_up_amount (base_payment : ℚ) (top_up_params : Option TopUpParams) : ℚ :=
  match top_up_params with
  | Option.none => 0
  | some p =>
    let effective_payment := max base_payment p.minimum_payment + p.additional_amount
    effective_payment - base_payment

/-- Embedding of `calculate_monthly_payment` from `src/housing.py` (lines 20-42); the body
is identical to the copy in `src/utils/calculations.py`. -/
def calculate_monthly_payment (principal annual_rate : ℚ) (years : Nat) : ℚ :=
  if annual_rate = 0 then principal / ((years : ℚ) * 12)
  else
    let monthly_rate := annual_rate / 12
    let num_payments := years * 12
    principal * (monthly_rate * (1 + monthly_rate) ^ num_payments) /
      ((1 + monthly_rate) ^ num_payments - 1)

end HousingApp

namespace Calculations

/-! ## Auxiliary definitions used to state properties of the embedding -/

/-- Interest accrued in one period of `calculate_loan_schedule_simple`
(lines 29-30): daily-proration convention. -/
def simpleInterest (rate : ℚ) (s : SimpleState) : ℚ :=
  s.balance * rate * (daysInMonth s.year s.month : ℚ) / 365

/-- Year-end add-on of one period of `calculate_loan_schedule_simple`
(lines 32-35). -/
def simpleAddOn (addOn : ℚ) (s : SimpleState) : ℚ :=
  if (s.period + 1) % 12 = 0 then addOn else 0

/-- Interest accrued in one period of `calculate_loan_schedule_variable_rates`
(lines 137-138): daily-proration convention at the loan-year's rate. -/
def varInterest (interest_rates_dict : List (Nat × ℚ)) (rates_onwards : ℚ) (s : VarState) : ℚ :=
  s.balance * dictGet interest_rates_dict rates_onwards s.loan_year *
    (daysInMonth s.year s.month : ℚ) / 365

/-- Year-end add-on of one period of `calculate_loan_schedule_variable_rates`
(lines 140-145). -/
def varAddOn (addOn : ℚ) (s : VarState) : ℚ :=
  if (s.period + 1) % 12 = 0 then addOn else 0

/-- Loan-year counter after one period of `calculate_loan_schedule_variable_rates`
(line 144). -/
def varNextLoanYear (s : VarState) : Nat :=
  if (s.period + 1) % 12 = 0 then s.loan_year + 1 else s.loan_year

/-- Interest accrued in one period of `calculate_standard_mortgage_schedule`
(lines 271-273): monthly-rate convention. -/
def mortInterest (annual_rate : ℚ) (s : MortState) : ℚ :=
  s.balance * (annual_rate / 12)

/-- Year-end add-on of one period of `calculate_standard_mortgage_schedule`
(lines 275-279). -/
def mortAddOn (addOn : ℚ) (s : MortState) : ℚ :=
  if (s.period + 1) % 12 = 0 then addOn else 0

/-- Iterated calendar advance: the calendar after `n` whole periods. -/
def iterCalendar : Nat → Int × Nat → Int × Nat
  | 0, ym => ym
  | n + 1, ym => iterCalendar n (advanceCalendar ym.1 ym.2)

/-- Calendar pair computed at lines 371-374 of
`calculate_variable_rate_mortgage_schedule` (note `cal_year` is mutated and
threaded on). -/
def vmCal (start_month month_in_year : Nat) (cal_year : Int) : Nat × Int :=
  if 12 < month_in_year + start_month then (month_in_year + start_month - 12, cal_year + 1)
  else (month_in_year + start_month, cal_year)

/-- Principal paid in one period of the variable-rate mortgage inner loop
(lines 376-391). -/
def vmPP (current_rate monthly_payment yearly_add_on : ℚ) (tup : Option TopUpStrategy)
    (month_in_year : Nat) (bal : ℚ) : ℚ :=
  principalPaymentOf bal
    (monthly_payment + calculate_top_up_amount monthly_payment tup +
      (if month_in_year = 11 then yearly_add_on else 0))
    (bal * (current_rate / 12))

/-- The `month_info` row emitted by one period of the variable-rate mortgage
inner loop (lines 394-406). -/
def vmRowOf (start_month loan_year : Nat) (current_rate monthly_payment yearly_add_on : ℚ)
    (tup : Option TopUpStrategy) (month_in_year : Nat) (cal_year : Int) (bal : ℚ) : VMRec :=
  { year := (vmCal start_month month_in_year cal_year).2
    month := (vmCal start_month month_in_year cal_year).1
    payment_number := (loan_year - 1) * 12 + month_in_year + 1
    interest_rate := current_rate
    monthly_payment := monthly_payment
    interest_paid := bal * (current_rate / 12)
    principal_paid := vmPP current_rate monthly_payment yearly_add_on tup month_in_year bal
    starting_balance := bal
    ending_balance := bal - vmPP current_rate monthly_payment yearly_add_on tup month_in_year bal
    add_on := if month_in_year = 11 then yearly_add_on else 0
    top_up := calculate_top_up_amount monthly_payment tup }

/-- Rate selected for a loan-year by `calculate_variable_rate_mortgage_schedule`
(lines 349-355): positional for loan-years 1-5, clamped to index 5 from
loan-year 6 on. -/
def vmYearRate (interest_rates_list : List ℚ) (loan_year : Nat) : ℚ :=
  interest_rates_list.getD (if loan_year ≤ 5 then loan_year - 1 else 5) 0

/-- One whole loan-year of the variable-rate mortgage engine (lines 348-364
select the rate, the remaining years and the recomputed payment; the inner
loop then runs up to 12 months): the emitted rows and the balance left. -/
def vmYearMonths (start_year : Int) (start_month : Nat) (interest_rates_list : List ℚ)
    (years : Nat) (yearly_add_on : ℚ) (tup : Option TopUpStrategy)
    (loan_year : Nat) (bal : ℚ) : List VMRec × ℚ :=
  vmMonths start_month loan_year (vmYearRate interest_rates_list loan_year)
    (calculate_monthly_payment bal (vmYearRate interest_rates_list loan_year)
      (years - loan_year + 1))
    yearly_add_on tup 0 12 (start_year + (loan_year : Int) - 1) bal

/-- Balance left after running one whole loan-year of the variable-rate
mortgage engine. -/
def vmYearStep (start_year : Int) (start_month : Nat) (interest_rates_list : List ℚ)
    (years : Nat) (yearly_add_on : ℚ) (tup : Option TopUpStrategy)
    (loan_year : Nat) (bal : ℚ) : ℚ :=
  (vmYearMonths start_year start_month interest_rates_list years yearly_add_on tup
    loan_year bal).2

/-- Remaining balance of the variable-rate mortgage engine after `k`
completed loan-years (balance entering loan-year `k+1`). -/
def vmBalanceAfterYears (start_year : Int) (start_month : Nat)
    (interest_rates_list : List ℚ) (years : Nat) (yearly_add_on : ℚ)
    (tup : Option TopUpStrategy) (debt : ℚ) : Nat → ℚ
  | 0 => debt
  | k + 1 => vmYearStep start_year start_month interest_rates_list years yearly_add_on tup
      (k + 1) (vmBalanceAfterYears start_year start_month interest_rates_list years
        yearly_add_on tup debt k)

/-- The balance recurrence induced by the standard-mortgage loop when the
payment always covers interest: each period the balance compounds at the
monthly rate and the payment is subtracted. -/
def annuityBalance (debt r pay : ℚ) : Nat → ℚ
  | 0 => debt
  | k + 1 => annuityBalance debt r pay k * (1 + r) - pay

/-- Calendar stamp of the first emitted row of a simple-schedule run. -/
def firstRowYearMonth (res : RunResult SimpleRec) : Option (Int × Nat) :=
  match res with
  | RunResult.ok rows => rows.head?.map fun r => (r.year, r.month)
  | _ => Option.none

/-- Recorded remaining balance of the first row of a simple-schedule run. -/
def firstRemainingBalance (res : RunResult SimpleRec) : Option ℚ :=
  match res with
  | RunResult.ok rows => rows.head?.map fun r => r.remaining_principal_balance
  | _ => Option.none

end Calculations

namespace Calculations

/-! ## Basic lemmas about the per-period principal split -/

lemma principalPaymentOf_min (b a i : ℚ) :
    principalPaymentOf b a i = if a ≤ i then 0 else min b (a - i) := by
  simp only [principalPaymentOf, min_def]

lemma principalPaymentOf_nonneg (b a i : ℚ) (hb : 0 ≤ b) :
    0 ≤ principalPaymentOf b a i := by
  unfold principalPaymentOf
  split
  · exact le_refl 0
  · next h =>
    split
    · exact hb
    · exact le_of_lt (sub_pos.mpr (not_le.mp h))

lemma principalPaymentOf_le_balance (b a i : ℚ) (hb : 0 ≤ b) :
    principalPaymentOf b a i ≤ b := by
  unfold principalPaymentOf
  split
  · exact hb
  · split
    · exact le_refl b
    · next h2 => exact le_of_lt (not_le.mp h2)

/-- With a non-negative starting balance the simple-schedule step never
raises: the balance cannot increase, so the check of lines 64-66 passes. -/
lemma simpleStep_eq_ok (rate pay addOn : ℚ) (s : SimpleState) (hb : 0 ≤ s.balance) :
    simpleStep rate pay addOn s = Except.ok
      ({ starting_principal_balance := s.balance
         principal_payment :=
           principalPaymentOf s.balance (pay + simpleAddOn addOn s) (simpleInterest rate s)
         interest_payment := simpleInterest rate s
         total_payment :=
           principalPaymentOf s.balance (pay + simpleAddOn addOn s) (simpleInterest rate s) +
             simpleInterest rate s + simpleAddOn addOn s
         add_on := simpleAddOn addOn s
         remaining_principal_balance :=
           s.balance -
             principalPaymentOf s.balance (pay + simpleAddOn addOn s) (simpleInterest rate s)
         year := (advanceCalendar s.year s.month).1
         month := (advanceCalendar s.year s.month).2 },
       { year := (advanceCalendar s.year s.month).1
         month := (advanceCalendar s.year s.month).2
         balance :=
           s.balance -
             principalPaymentOf s.balance (pay + simpleAddOn addOn s) (simpleInterest rate s)
         period := s.period + 1 }) := by
  have hcond : ¬(1 ≤ s.period ∧ s.balance <
      s.balance - principalPaymentOf s.balance (pay + simpleAddOn addOn s) (simpleInterest rate s)) := by
    rintro ⟨-, hlt⟩
    have hpp := principalPaymentOf_nonneg s.balance (pay + simpleAddOn addOn s)
      (simpleInterest rate s) hb
    linarith
  simp only [simpleStep, simpleInterest, simpleAddOn] at hcond ⊢
  rw [if_neg hcond]

end Calculations

/-- C5: the annuity payment formula.  `calculate_monthly_payment` returns
`principal / (years*12)` at zero rate — in particular
`calculate_monthly_payment 1000000 0 10 = 1000000 / 120` exactly — and
otherwise `principal * monthlyRate * (1+monthlyRate)^n / ((1+monthlyRate)^n - 1)`
with `monthlyRate = annualRate/12` and `n = years*12`; the copy in
`src/housing.py` computes the same function. -/
theorem c5_standard_payment_formula :
    (∀ (p : ℚ) (y : Nat),
        Calculations.calculate_monthly_payment p 0 y = p / ((y : ℚ) * 12)) ∧
    (∀ (p r : ℚ) (y : Nat), r ≠ 0 →
        Calculations.calculate_monthly_payment p r y =
          p * (r / 12 * (1 + r / 12) ^ (y * 12)) / ((1 + r / 12) ^ (y * 12) - 1)) ∧
    Calculations.calculate_monthly_payment 1000000 0 10 = 1000000 / 120 ∧
    (∀ (p r : ℚ) (y : Nat),
        HousingApp.calculate_monthly_payment p r y =
          Calculations.calculate_monthly_payment p r y) := by
  refine ⟨fun p y => ?_, fun p r y hr => ?_, ?_, fun p r y => rfl⟩
  · simp [Calculations.calculate_monthly_payment]
  · simp [Calculations.calculate_monthly_payment, hr]
  · norm_num [Calculations.calculate_monthly_payment]

/-- C5 witness: the non-zero-rate branch of the formula at a concrete input. -/
theorem c5_standard_payment_formula_witness :
    (1 : ℚ) ≠ 0 ∧
      Calculations.calculate_monthly_payment 1200 1 1 =
        1200 * (1 / 12 * (1 + 1 / 12) ^ (1 * 12)) / ((1 + 1 / 12) ^ (1 * 12) - 1) :=
  ⟨by norm_num, c5_standard_payment_formula.2.1 1200 1 1 (by norm_num)⟩

/-- C6: top-up resolution.  The strategy-selector version of
`calculate_top_up_amount` (`src/utils/calculations.py`) returns 0 for no
strategy, `max 0 (m - base)` for the fixed/target-minimum strategy —
so 5000 at (15000, target 20000) and 0 at (25000, target 20000) —
the amount itself for the additional strategy and `base * p / 100` for the
percentage strategy; the combined version in `src/housing.py` returns
`(max base minimum + additional) - base`. -/
theorem c6_resolve_top_up :
    (∀ b : ℚ, Calculations.calculate_top_up_amount b Option.none = 0 ∧
        Calculations.calculate_top_up_amount b (some Calculations.TopUpStrategy.noStrategy) = 0) ∧
    (∀ b m : ℚ,
        Calculations.calculate_top_up_amount b (some (Calculations.TopUpStrategy.fixed m)) =
          max 0 (m - b)) ∧
    (∀ b a : ℚ,
        Calculations.calculate_top_up_amount b (some (Calculations.TopUpStrategy.additional a)) =
          a) ∧
    (∀ b p : ℚ,
        Calculations.calculate_top_up_amount b (some (Calculations.TopUpStrategy.percentage p)) =
          b * p / 100) ∧
    Calculations.calculate_top_up_amount 15000 (some (Calculations.TopUpStrategy.fixed 20000)) =
      5000 ∧
    Calculations.calculate_top_up_amount 25000 (some (Calculations.TopUpStrategy.fixed 20000)) =
      0 ∧
    (∀ b mn ad : ℚ,
        HousingApp.calculate_top_up_amount b (some ⟨mn, ad⟩) = (max b mn + ad) - b) ∧
    (∀ b : ℚ, HousingApp.calculate_top_up_amount b Option.none = 0) := by
  refine ⟨fun b => ⟨rfl, rfl⟩, fun b m => rfl, fun b a => rfl, fun b p => ?_, ?_, ?_,
    fun b mn ad => rfl, fun b => rfl⟩
  · simp [Calculations.calculate_top_up_amount, mul_div_assoc]
  · norm_num [Calculations.calculate_top_up_amount]
  · norm_num [Calculations.calculate_top_up_amount]

namespace Calculations

/-- With a non-negative starting balance the variable-rates step never
raises: the balance cannot increase, so the check of lines 173-175 passes. -/
lemma varStep_eq_ok (rates pays : List (Nat × ℚ)) (ro po aOn : ℚ) (s : VarState)
    (hb : 0 ≤ s.balance) :
    varStep rates pays ro po aOn s = Except.ok
      ({ starting_principal_balance := s.balance
         principal_payment :=
           principalPaymentOf s.balance (dictGet pays po s.loan_year + varAddOn aOn s)
             (varInterest rates ro s)
         interest_payment := varInterest rates ro s
         total_payment :=
           principalPaymentOf s.balance (dictGet pays po s.loan_year + varAddOn aOn s)
               (varInterest rates ro s) + varInterest rates ro s + varAddOn aOn s
         add_on := varAddOn aOn s
         remaining_principal_balance :=
           s.balance -
             principalPaymentOf s.balance (dictGet pays po s.loan_year + varAddOn aOn s)
               (varInterest rates ro s)
         year := s.year
         month := s.month
         applied_rate := dictGet rates ro s.loan_year * 100
         applied_payment := dictGet pays po s.loan_year },
       { year := (advanceCalendar s.year s.month).1
         month := (advanceCalendar s.year s.month).2
         balance :=
           s.balance -
             principalPaymentOf s.balance (dictGet pays po s.loan_year + varAddOn aOn s)
               (varInterest rates ro s)
         period := s.period + 1
         loan_year := varNextLoanYear s }) := by
  have hcond : ¬(1 ≤ s.period ∧ s.balance <
      s.balance - principalPaymentOf s.balance (dictGet pays po s.loan_year + varAddOn aOn s)
        (varInterest rates ro s)) := by
    rintro ⟨-, hlt⟩
    have hpp := principalPaymentOf_nonneg s.balance
      (dictGet pays po s.loan_year + varAddOn aOn s) (varInterest rates ro s) hb
    linarith
  simp only [varStep, varInterest, varAddOn, varNextLoanYear] at hcond ⊢
  rw [if_neg hcond]

/-- With a non-negative starting balance the standard-mortgage step never
raises: the balance cannot increase, so the check of lines 311-313 passes. -/
lemma mortStep_eq_ok (rate pay aOn : ℚ) (tup : Option TopUpStrategy) (s : MortState)
    (hb : 0 ≤ s.balance) :
    mortStep rate pay aOn tup s = Except.ok
      ({ starting_principal_balance := s.balance
         principal_payment :=
           principalPaymentOf s.balance
             (pay + calculate_top_up_amount pay tup + mortAddOn aOn s) (mortInterest rate s)
         interest_payment := mortInterest rate s
         total_payment :=
           principalPaymentOf s.balance
               (pay + calculate_top_up_amount pay tup + mortAddOn aOn s) (mortInterest rate s) +
             mortInterest rate s + mortAddOn aOn s + calculate_top_up_amount pay tup
         add_on := mortAddOn aOn s
         top_up := calculate_top_up_amount pay tup
         remaining_principal_balance :=
           s.balance -
             principalPaymentOf s.balance
               (pay + calculate_top_up_amount pay tup + mortAddOn aOn s) (mortInterest rate s)
         year := s.year
         month := s.month
         calculated_payment := pay },
       { year := (advanceCalendar s.year s.month).1
         month := (advanceCalendar s.year s.month).2
         balance :=
           s.balance -
             principalPaymentOf s.balance
               (pay + calculate_top_up_amount pay tup + mortAddOn aOn s) (mortInterest rate s)
         period := s.period + 1 }) := by
  have hcond : ¬(1 ≤ s.period ∧ s.balance <
      s.balance - principalPaymentOf s.balance
        (pay + calculate_top_up_amount pay tup + mortAddOn aOn s) (mortInterest rate s)) := by
    rintro ⟨-, hlt⟩
    have hpp := principalPaymentOf_nonneg s.balance
      (pay + calculate_top_up_amount pay tup + mortAddOn aOn s) (mortInterest rate s) hb
    linarith
  simp only [mortStep, mortInterest, mortAddOn] at hcond ⊢
  rw [if_neg hcond]

end Calculations

/-- C1: for every period of every schedule variant, the available payment is
split by `principalPaymentOf`: when it does not cover the accrued interest the
principal paid is 0 and the balance is unchanged; otherwise the principal paid
is `min balance (available - interest)`; it is never negative and never exceeds
the remaining balance; and under the loop invariant `0 ≤ balance` none of the
three checked step functions raises an error. -/
theorem c1_insufficient_payment_degenerate (balance avail interest : ℚ) (hb : 0 ≤ balance) :
    (avail ≤ interest →
      Calculations.principalPaymentOf balance avail interest = 0 ∧
      balance - Calculations.principalPaymentOf balance avail interest = balance) ∧
    (interest < avail →
      Calculations.principalPaymentOf balance avail interest = min balance (avail - interest)) ∧
    0 ≤ Calculations.principalPaymentOf balance avail interest ∧
    Calculations.principalPaymentOf balance avail interest ≤ balance ∧
    (∀ (rate pay addOn : ℚ) (s : Calculations.SimpleState), 0 ≤ s.balance →
      ∃ out, Calculations.simpleStep rate pay addOn s = Except.ok out) ∧
    (∀ (rates pays : List (Nat × ℚ)) (ro po aOn : ℚ) (s : Calculations.VarState),
      0 ≤ s.balance →
      ∃ out, Calculations.varStep rates pays ro po aOn s = Except.ok out) ∧
    (∀ (rate pay aOn : ℚ) (tup : Option Calculations.TopUpStrategy)
      (s : Calculations.MortState), 0 ≤ s.balance →
      ∃ out, Calculations.mortStep rate pay aOn tup s = Except.ok out) := by
  refine ⟨fun h => ?_, fun h => ?_, Calculations.principalPaymentOf_nonneg _ _ _ hb,
    Calculations.principalPaymentOf_le_balance _ _ _ hb,
    fun rate pay addOn s hs => ⟨_, Calculations.simpleStep_eq_ok rate pay addOn s hs⟩,
    fun rates pays ro po aOn s hs => ⟨_, Calculations.varStep_eq_ok rates pays ro po aOn s hs⟩,
    fun rate pay aOn tup s hs => ⟨_, Calculations.mortStep_eq_ok rate pay aOn tup s hs⟩⟩
  · rw [Calculations.principalPaymentOf_min, if_pos h]
    exact ⟨rfl, sub_zero balance⟩
  · rw [Calculations.principalPaymentOf_min, if_neg (not_le.mpr h)]

/-- C1 witness: a concrete insufficient-payment period (available 1000,
interest 14333) yields zero principal on a positive balance. -/
theorem c1_insufficient_payment_degenerate_witness :
    (0 : ℚ) ≤ 4300000 ∧ (1000 : ℚ) ≤ 14333 ∧
      Calculations.principalPaymentOf 4300000 1000 14333 = 0 :=
  ⟨by norm_num, by norm_num,
    ((c1_insufficient_payment_degenerate 4300000 1000 14333 (by norm_num)).1
      (by norm_num)).1⟩

namespace Calculations

/-- Projection form of `simpleStep_eq_ok`: names the emitted row and the
successor state and lists the field facts needed by the loop invariants. -/
lemma simpleStep_spec (rate pay addOn : ℚ) (s : SimpleState) (hb : 0 ≤ s.balance) :
    ∃ row s', simpleStep rate pay addOn s = Except.ok (row, s') ∧
      row.starting_principal_balance = s.balance ∧
      row.remaining_principal_balance = s'.balance ∧
      s'.balance = s.balance - row.principal_payment ∧
      row.principal_payment =
        principalPaymentOf s.balance (pay + simpleAddOn addOn s) (simpleInterest rate s) ∧
      row.interest_payment = simpleInterest rate s ∧
      row.add_on = simpleAddOn addOn s ∧
      row.year = (advanceCalendar s.year s.month).1 ∧
      row.month = (advanceCalendar s.year s.month).2 ∧
      s'.year = (advanceCalendar s.year s.month).1 ∧
      s'.month = (advanceCalendar s.year s.month).2 ∧
      s'.period = s.period + 1 :=
  ⟨_, _, simpleStep_eq_ok rate pay addOn s hb,
    rfl, rfl, rfl, rfl, rfl, rfl, rfl, rfl, rfl, rfl, rfl⟩

/-- Outcomes of the simple-schedule loop from a non-negative balance: it
either runs out of fuel or completes normally (never an error), and a
completed run has rows whose remaining balances are non-negative, do not
exceed their starting balances, and chain together (each row starts at the
previous row's remaining balance, the first at the initial balance). -/
lemma simpleLoop_run (rate pay addOn : ℚ) :
    ∀ (fuel : Nat) (s : SimpleState), 0 ≤ s.balance →
    simpleLoop rate pay addOn fuel s = RunResult.fuelOut ∨
    ∃ rows, simpleLoop rate pay addOn fuel s = RunResult.ok rows ∧
      (∀ r ∈ rows, 0 ≤ r.remaining_principal_balance ∧
          r.remaining_principal_balance ≤ r.starting_principal_balance) ∧
      List.Chain' (fun a b => b.starting_principal_balance = a.remaining_principal_balance)
        rows ∧
      (∀ r ∈ rows.head?, r.starting_principal_balance = s.balance) := by
  intro fuel
  induction fuel with
  | zero =>
    intro s hb
    by_cases hpos : 0 < s.balance
    · left
      simp [simpleLoop, hpos]
    · right
      exact ⟨[], by simp [simpleLoop, hpos], by simp, by simp, by simp⟩
  | succ fuel ih =>
    intro s hb
    by_cases hpos : 0 < s.balance
    · obtain ⟨row, s2, hstep, hrstart, hrrem, hs2bal, hrpp, -, -, -, -, -, -, -⟩ :=
        simpleStep_spec rate pay addOn s hb
      have hpp0 : 0 ≤ row.principal_payment := by
        rw [hrpp]; exact principalPaymentOf_nonneg _ _ _ hb
      have hppb : row.principal_payment ≤ s.balance := by
        rw [hrpp]; exact principalPaymentOf_le_balance _ _ _ hb
      have hb2 : 0 ≤ s2.balance := by rw [hs2bal]; linarith
      rcases ih s2 hb2 with hfo | ⟨rows, hrows, hmem, hchain, hhead⟩
      · left
        simp only [simpleLoop, hpos, if_true, hstep, hfo]
      · right
        refine ⟨row :: rows, ?_, ?_, ?_, ?_⟩
        · simp only [simpleLoop, hpos, if_true, hstep, hrows]
        · intro r hr
          rcases List.mem_cons.mp hr with hr | hr
          · subst hr
            constructor
            · rw [hrrem]; exact hb2
            · rw [hrrem, hs2bal, hrstart]; linarith
          · exact hmem r hr
        · rw [List.chain'_cons']
          refine ⟨fun b hbmem => ?_, hchain⟩
          rw [hhead b hbmem, hrrem]
        · intro r hr
          simp only [List.head?_cons, Option.mem_def, Option.some.injEq] at hr
          subst hr
          exact hrstart
    · right
      exact ⟨[], by simp [simpleLoop, hpos], by simp, by simp, by simp⟩

end Calculations

namespace Calculations

/-- Projection form of `varStep_eq_ok`. -/
lemma varStep_spec (rates pays : List (Nat × ℚ)) (ro po aOn : ℚ) (s : VarState)
    (hb : 0 ≤ s.balance) :
    ∃ row s', varStep rates pays ro po aOn s = Except.ok (row, s') ∧
      row.starting_principal_balance = s.balance ∧
      row.remaining_principal_balance = s'.balance ∧
      s'.balance = s.balance - row.principal_payment ∧
      row.principal_payment =
        principalPaymentOf s.balance (dictGet pays po s.loan_year + varAddOn aOn s)
          (varInterest rates ro s) ∧
      row.interest_payment = varInterest rates ro s ∧
      row.add_on = varAddOn aOn s ∧
      row.applied_rate = dictGet rates ro s.loan_year * 100 ∧
      row.applied_payment = dictGet pays po s.loan_year ∧
      row.year = s.year ∧
      row.month = s.month ∧
      s'.year = (advanceCalendar s.year s.month).1 ∧
      s'.month = (advanceCalendar s.year s.month).2 ∧
      s'.period = s.period + 1 ∧
      s'.loan_year = varNextLoanYear s :=
  ⟨_, _, varStep_eq_ok rates pays ro po aOn s hb,
    rfl, rfl, rfl, rfl, rfl, rfl, rfl, rfl, rfl, rfl, rfl, rfl, rfl, rfl⟩

/-- Projection form of `mortStep_eq_ok`. -/
lemma mortStep_spec (rate pay aOn : ℚ) (tup : Option TopUpStrategy) (s : MortState)
    (hb : 0 ≤ s.balance) :
    ∃ row s', mortStep rate pay aOn tup s = Except.ok (row, s') ∧
      row.starting_principal_balance = s.balance ∧
      row.remaining_principal_balance = s'.balance ∧
      s'.balance = s.balance - row.principal_payment ∧
      row.principal_payment =
        principalPaymentOf s.balance
          (pay + calculate_top_up_amount pay tup + mortAddOn aOn s) (mortInterest rate s) ∧
      row.interest_payment = mortInterest rate s ∧
      row.add_on = mortAddOn aOn s ∧
      row.top_up = calculate_top_up_amount pay tup ∧
      row.calculated_payment = pay ∧
      row.year = s.year ∧
      row.month = s.month ∧
      s'.year = (advanceCalendar s.year s.month).1 ∧
      s'.month = (advanceCalendar s.year s.month).2 ∧
      s'.period = s.period + 1 :=
  ⟨_, _, mortStep_eq_ok rate pay aOn tup s hb,
    rfl, rfl, rfl, rfl, rfl, rfl, rfl, rfl, rfl, rfl, rfl, rfl, rfl⟩

/-- Outcomes of the variable-rates loop from a non-negative balance:
fuel exhaustion or normal completion (never an error), with the same
row invariants as the simple loop. -/
lemma varLoop_run (rates pays : List (Nat × ℚ)) (ro po aOn : ℚ) :
    ∀ (fuel : Nat) (s : VarState), 0 ≤ s.balance →
    varLoop rates pays ro po aOn fuel s = RunResult.fuelOut ∨
    ∃ rows, varLoop rates pays ro po aOn fuel s = RunResult.ok rows ∧
      (∀ r ∈ rows, 0 ≤ r.remaining_principal_balance ∧
          r.remaining_principal_balance ≤ r.starting_principal_balance) ∧
      List.Chain' (fun a b => b.starting_principal_balance = a.remaining_principal_balance)
        rows ∧
      (∀ r ∈ rows.head?, r.starting_principal_balance = s.balance) := by
  intro fuel
  induction fuel with
  | zero =>
    intro s hb
    by_cases hpos : 0 < s.balance
    · left
      simp [varLoop, hpos]
    · right
      exact ⟨[], by simp [varLoop, hpos], by simp, by simp, by simp⟩
  | succ fuel ih =>
    intro s hb
    by_cases hpos : 0 < s.balance
    · obtain ⟨row, s2, hstep, hrstart, hrrem, hs2bal, hrpp, -, -, -, -, -, -, -, -, -, -⟩ :=
        varStep_spec rates pays ro po aOn s hb
      have hpp0 : 0 ≤ row.principal_payment := by
        rw [hrpp]; exact principalPaymentOf_nonneg _ _ _ hb
      have hppb : row.principal_payment ≤ s.balance := by
        rw [hrpp]; exact principalPaymentOf_le_balance _ _ _ hb
      have hb2 : 0 ≤ s2.balance := by rw [hs2bal]; linarith
      rcases ih s2 hb2 with hfo | ⟨rows, hrows, hmem, hchain, hhead⟩
      · left
        simp only [varLoop, hpos, if_true, hstep, hfo]
      · right
        refine ⟨row :: rows, ?_, ?_, ?_, ?_⟩
        · simp only [varLoop, hpos, if_true, hstep, hrows]
        · intro r hr
          rcases List.mem_cons.mp hr with hr | hr
          · subst hr
            constructor
            · rw [hrrem]; exact hb2
            · rw [hrrem, hs2bal, hrstart]; linarith
          · exact hmem r hr
        · rw [List.chain'_cons']
          refine ⟨fun b hbmem => ?_, hchain⟩
          rw [hhead b hbmem, hrrem]
        · intro r hr
          simp only [List.head?_cons, Option.mem_def, Option.some.injEq] at hr
          subst hr
          exact hrstart
    · right
      exact ⟨[], by simp [varLoop, hpos], by simp, by simp, by simp⟩

/-- Outcomes of the standard-mortgage loop from a non-negative balance:
it always completes normally (never an error), emits at most `left` rows
(the loop is capped by `years*12 - period`), preserves non-negativity of
the final balance, and its rows satisfy the same invariants as above. -/
lemma mortgageLoop_run (rate pay aOn : ℚ) (tup : Option TopUpStrategy) :
    ∀ (left : Nat) (s : MortState), 0 ≤ s.balance →
    ∃ rows sEnd, mortgageLoop rate pay aOn tup left s = Except.ok (rows, sEnd) ∧
      rows.length ≤ left ∧ 0 ≤ sEnd.balance ∧
      (∀ r ∈ rows, 0 ≤ r.remaining_principal_balance ∧
          r.remaining_principal_balance ≤ r.starting_principal_balance) ∧
      List.Chain' (fun a b => b.starting_principal_balance = a.remaining_principal_balance)
        rows ∧
      (∀ r ∈ rows.head?, r.starting_principal_balance = s.balance) := by
  intro left
  induction left with
  | zero =>
    intro s hb
    exact ⟨[], s, rfl, by simp, hb, by simp, by simp, by simp⟩
  | succ left ih =>
    intro s hb
    by_cases hpos : 0 < s.balance
    · obtain ⟨row, s2, hstep, hrstart, hrrem, hs2bal, hrpp, -, -, -, -, -, -, -, -, -⟩ :=
        mortStep_spec rate pay aOn tup s hb
      have hpp0 : 0 ≤ row.principal_payment := by
        rw [hrpp]; exact principalPaymentOf_nonneg _ _ _ hb
      have hppb : row.principal_payment ≤ s.balance := by
        rw [hrpp]; exact principalPaymentOf_le_balance _ _ _ hb
      have hb2 : 0 ≤ s2.balance := by rw [hs2bal]; linarith
      obtain ⟨rows, sEnd, hrows, hlen, hsEnd, hmem, hchain, hhead⟩ := ih s2 hb2
      refine ⟨row :: rows, sEnd, ?_, ?_, hsEnd, ?_, ?_, ?_⟩
      · simp only [mortgageLoop, hpos, if_true, hstep, hrows]
      · simpa using Nat.succ_le_succ hlen
      · intro r hr
        rcases List.mem_cons.mp hr with hr | hr
        · subst hr
          constructor
          · rw [hrrem]; exact hb2
          · rw [hrrem, hs2bal, hrstart]; linarith
        · exact hmem r hr
      · rw [List.chain'_cons']
        refine ⟨fun b hbmem => ?_, hchain⟩
        rw [hhead b hbmem, hrrem]
      · intro r hr
        simp only [List.head?_cons, Option.mem_def, Option.some.injEq] at hr
        subst hr
        exact hrstart
    · exact ⟨[], s, by simp [mortgageLoop, hpos], by simp, hb, by simp, by simp, by simp⟩

end Calculations

namespace Calculations

/-- Base equation of the inner loop: no months left. -/
lemma vmMonths_zero_eq (sm ly : Nat) (rate pay aOn : ℚ) (tup : Option TopUpStrategy)
    (mIdx : Nat) (cy : Int) (bal : ℚ) :
    vmMonths sm ly rate pay aOn tup mIdx 0 cy bal = ([], bal) := rfl

/-- Unfolding equation of the inner loop for a positive balance. -/
lemma vmMonths_succ_eq (sm ly : Nat) (rate pay aOn : ℚ) (tup : Option TopUpStrategy)
    (mIdx left : Nat) (cy : Int) (bal : ℚ) (hpos : ¬ bal ≤ 0) :
    vmMonths sm ly rate pay aOn tup mIdx (left + 1) cy bal =
      (if bal - vmPP rate pay aOn tup mIdx bal ≤ 1 / 100 then
        ([vmRowOf sm ly rate pay aOn tup mIdx cy bal], 0)
      else
        (vmRowOf sm ly rate pay aOn tup mIdx cy bal ::
            (vmMonths sm ly rate pay aOn tup (mIdx + 1) left (vmCal sm mIdx cy).2
              (bal - vmPP rate pay aOn tup mIdx bal)).1,
          (vmMonths sm ly rate pay aOn tup (mIdx + 1) left (vmCal sm mIdx cy).2
            (bal - vmPP rate pay aOn tup mIdx bal)).2)) := by
  simp only [vmMonths, vmRowOf, vmPP, vmCal]
  rw [if_neg hpos]

/-- Unfolding equation of the inner loop for a non-positive balance. -/
lemma vmMonths_break_eq (sm ly : Nat) (rate pay aOn : ℚ) (tup : Option TopUpStrategy)
    (mIdx left : Nat) (cy : Int) (bal : ℚ) (hpos : bal ≤ 0) :
    vmMonths sm ly rate pay aOn tup mIdx (left + 1) cy bal = ([], bal) := by
  simp only [vmMonths]
  rw [if_pos hpos]

end Calculations

namespace Calculations

/-- Invariants of the variable-rate mortgage inner loop: emitted rows have
non-negative endings bounded by their startings and chain exactly; the
returned balance is non-negative and bounded by the input; rows before the
last stay strictly above the 0.01 epsilon; the last row either triggered the
clamp (loop balance zeroed, recorded ending at most 0.01) or did not
(loop balance equals its recorded ending, which exceeds 0.01); and every row
records the loan-year's payment and rate, monthly-convention interest, and a
payment number derived from its month index. -/
lemma vmMonths_run (sm ly : Nat) (rate pay aOn : ℚ) (tup : Option TopUpStrategy) :
    ∀ (left mIdx : Nat) (cy : Int) (bal : ℚ), 0 ≤ bal →
    ∀ rows fb, vmMonths sm ly rate pay aOn tup mIdx left cy bal = (rows, fb) →
      (∀ r ∈ rows, 0 ≤ r.ending_balance ∧ r.ending_balance ≤ r.starting_balance) ∧
      List.Chain' (fun a b => b.starting_balance = a.ending_balance) rows ∧
      (∀ r ∈ rows.head?, r.starting_balance = bal) ∧
      0 ≤ fb ∧ fb ≤ bal ∧
      (rows = [] → fb = bal) ∧
      (∀ r ∈ rows.getLast?, (fb = 0 ∧ r.ending_balance ≤ 1 / 100) ∨
          (fb = r.ending_balance ∧ 1 / 100 < r.ending_balance)) ∧
      (∀ r ∈ rows.dropLast, 1 / 100 < r.ending_balance) ∧
      (∀ r ∈ rows, r.monthly_payment = pay ∧ r.interest_rate = rate ∧
          r.interest_paid = r.starting_balance * (rate / 12) ∧
          ∃ k, mIdx ≤ k ∧ k < mIdx + left ∧ r.payment_number = (ly - 1) * 12 + k + 1) := by
  intro left
  induction left with
  | zero =>
    intro mIdx cy bal hb rows fb heq
    rw [vmMonths_zero_eq] at heq
    simp only [Prod.mk.injEq] at heq
    obtain ⟨rfl, rfl⟩ := heq
    exact ⟨by simp, by simp, by simp, hb, le_refl bal, fun _ => rfl, by simp, by simp, by simp⟩
  | succ left ih =>
    intro mIdx cy bal hb rows fb heq
    by_cases hpos : bal ≤ 0
    · rw [vmMonths_break_eq sm ly rate pay aOn tup mIdx left cy bal hpos] at heq
      simp only [Prod.mk.injEq] at heq
      obtain ⟨rfl, rfl⟩ := heq
      exact ⟨by simp, by simp, by simp, hb, le_refl bal, fun _ => rfl, by simp, by simp, by simp⟩
    · rw [vmMonths_succ_eq sm ly rate pay aOn tup mIdx left cy bal hpos] at heq
      have hpp0 : 0 ≤ vmPP rate pay aOn tup mIdx bal :=
        principalPaymentOf_nonneg _ _ _ hb
      have hppb : vmPP rate pay aOn tup mIdx bal ≤ bal :=
        principalPaymentOf_le_balance _ _ _ hb
      by_cases hcl : bal - vmPP rate pay aOn tup mIdx bal ≤ 1 / 100
      · rw [if_pos hcl] at heq
        simp only [Prod.mk.injEq] at heq
        obtain ⟨rfl, rfl⟩ := heq
        refine ⟨?_, by simp, ?_, le_refl 0, hb, by simp, ?_, by simp, ?_⟩
        · intro r hr
          simp only [List.mem_singleton] at hr
          subst hr
          exact ⟨by simp [vmRowOf]; linarith, by simp [vmRowOf]; linarith⟩
        · intro r hr
          simp only [List.head?_cons, Option.mem_def, Option.some.injEq] at hr
          subst hr
          rfl
        · intro r hr
          simp only [List.getLast?_singleton, Option.mem_def, Option.some.injEq] at hr
          subst hr
          exact Or.inl ⟨rfl, by simpa [vmRowOf] using hcl⟩
        · intro r hr
          simp only [List.mem_singleton] at hr
          subst hr
          refine ⟨rfl, rfl, rfl, mIdx, le_refl mIdx, by omega, rfl⟩
      · rw [if_neg hcl] at heq
        push_neg at hcl
        have hb2 : 0 ≤ bal - vmPP rate pay aOn tup mIdx bal := by linarith
        rcases hB : vmMonths sm ly rate pay aOn tup (mIdx + 1) left (vmCal sm mIdx cy).2
            (bal - vmPP rate pay aOn tup mIdx bal) with ⟨rows2, fb2⟩
        rw [hB] at heq
        simp only [Prod.mk.injEq] at heq
        obtain ⟨rfl, rfl⟩ := heq
        obtain ⟨ih1, ih2, ih3, ih4, ih5, ih6, ih7, ih8, ih9⟩ :=
          ih (mIdx + 1) (vmCal sm mIdx cy).2 (bal - vmPP rate pay aOn tup mIdx bal) hb2
            rows2 fb2 hB
        have hrend : (vmRowOf sm ly rate pay aOn tup mIdx cy bal).ending_balance =
            bal - vmPP rate pay aOn tup mIdx bal := rfl
        have hrstart : (vmRowOf sm ly rate pay aOn tup mIdx cy bal).starting_balance = bal := rfl
        refine ⟨?_, ?_, ?_, ih4, by linarith, by simp, ?_, ?_, ?_⟩
        · intro r hr
          rcases List.mem_cons.mp hr with hr | hr
          · subst hr
            exact ⟨by rw [hrend]; linarith, by rw [hrend, hrstart]; linarith⟩
          · exact ih1 r hr
        · rw [List.chain'_cons']
          exact ⟨fun b hbm => by rw [ih3 b hbm, hrend], ih2⟩
        · intro r hr
          simp only [List.head?_cons, Option.mem_def, Option.some.injEq] at hr
          subst hr
          exact hrstart
        · cases rows2 with
          | nil =>
            intro r hr
            simp only [List.getLast?_singleton, Option.mem_def, Option.some.injEq] at hr
            subst hr
            refine Or.inr ⟨?_, by rw [hrend]; exact hcl⟩
            rw [ih6 rfl, hrend]
          | cons b l =>
            intro r hr
            rw [List.getLast?_cons_cons] at hr
            exact ih7 r hr
        · cases rows2 with
          | nil => simp
          | cons b l =>
            intro r hr
            rw [List.dropLast_cons₂] at hr
            rcases List.mem_cons.mp hr with hr | hr
            · subst hr
              rw [hrend]
              exact hcl
            · exact ih8 r hr
        · intro r hr
          rcases List.mem_cons.mp hr with hr | hr
          · subst hr
            exact ⟨rfl, rfl, rfl, mIdx, le_refl mIdx, by omega, rfl⟩
          · obtain ⟨h1, h2, h3, k, hk1, hk2, hk3⟩ := ih9 r hr
            exact ⟨h1, h2, h3, k, by omega, by omega, hk3⟩

end Calculations

namespace Calculations

/-- Base equation of the outer loan-year loop. -/
lemma vmYears_zero_eq (sy : Int) (sm : Nat) (rates : List ℚ) (years : Nat) (aOn : ℚ)
    (tup : Option TopUpStrategy) (ly : Nat) (bal : ℚ) :
    vmYears sy sm rates years aOn tup ly 0 bal = [] := rfl

/-- Unfolding equation of the outer loan-year loop. -/
lemma vmYears_succ_eq (sy : Int) (sm : Nat) (rates : List ℚ) (years : Nat) (aOn : ℚ)
    (tup : Option TopUpStrategy) (ly left : Nat) (bal : ℚ) :
    vmYears sy sm rates years aOn tup ly (left + 1) bal =
      (if (vmYearMonths sy sm rates years aOn tup ly bal).2 ≤ 0 then
        (vmYearMonths sy sm rates years aOn tup ly bal).1
      else
        (vmYearMonths sy sm rates years aOn tup ly bal).1 ++
          vmYears sy sm rates years aOn tup (ly + 1) left
            (vmYearMonths sy sm rates years aOn tup ly bal).2) := rfl

/-- Invariants of the whole variable-rate mortgage schedule: rows have
non-negative endings bounded by startings, consecutive recorded balances can
only decrease (each row starts at or below the previous ending), and the
first row starts at or below the initial balance. -/
lemma vmYears_run (sy : Int) (sm : Nat) (rates : List ℚ) (years : Nat) (aOn : ℚ)
    (tup : Option TopUpStrategy) :
    ∀ (left ly : Nat) (bal : ℚ), 0 ≤ bal →
      (∀ r ∈ vmYears sy sm rates years aOn tup ly left bal,
          0 ≤ r.ending_balance ∧ r.ending_balance ≤ r.starting_balance) ∧
      List.Chain' (fun a b => b.starting_balance ≤ a.ending_balance)
        (vmYears sy sm rates years aOn tup ly left bal) ∧
      (∀ r ∈ (vmYears sy sm rates years aOn tup ly left bal).head?,
          r.starting_balance ≤ bal) := by
  intro left
  induction left with
  | zero =>
    intro ly bal hb
    rw [vmYears_zero_eq]
    exact ⟨by simp, by simp, by simp⟩
  | succ left ih =>
    intro ly bal hb
    rcases hM : vmYearMonths sy sm rates years aOn tup ly bal with ⟨rows1, fb⟩
    obtain ⟨m1, m2, m3, m4, m5, m6, m7, m8, m9⟩ :=
      vmMonths_run sm ly (vmYearRate rates ly)
        (calculate_monthly_payment bal (vmYearRate rates ly) (years - ly + 1)) aOn tup
        12 0 (sy + (ly : Int) - 1) bal hb rows1 fb hM
    rw [vmYears_succ_eq, hM]
    by_cases hfb : fb ≤ 0
    · rw [if_pos hfb]
      exact ⟨m1, m2.imp fun a b h => le_of_eq h, fun r hr => le_of_eq (m3 r hr)⟩
    · rw [if_neg hfb]
      push_neg at hfb
      obtain ⟨t1, t2, t3⟩ := ih (ly + 1) fb (le_of_lt hfb)
      refine ⟨?_, ?_, ?_⟩
      · intro r hr
        rcases List.mem_append.mp hr with hr | hr
        · exact m1 r hr
        · exact t1 r hr
      · refine List.Chain'.append (m2.imp fun a b h => le_of_eq h) t2 ?_
        intro a ha b hbm
        rcases m7 a ha with ⟨hfb0, -⟩ | ⟨hfbe, -⟩
        · exact absurd hfb0 (by intro h; rw [h] at hfb; exact lt_irrefl 0 hfb)
        · rw [← hfbe]
          exact t3 b hbm
      · cases rows1 with
        | nil =>
          intro r hr
          simp only [List.nil_append] at hr
          exact le_trans (t3 r hr) m5
        | cons a l =>
          intro r hr
          simp only [List.cons_append, List.head?_cons, Option.mem_def,
            Option.some.injEq] at hr
          subst hr
          exact le_of_eq (m3 a (by simp))

end Calculations

namespace Calculations

/-- If each row's recorded remaining balance is at most its starting balance
and each row starts at or below the previous remaining balance, then the
recorded remaining balances are non-increasing period over period. -/
lemma chain_stop_mono {α : Type} (start stop : α → ℚ) :
    ∀ rows : List α, (∀ r ∈ rows, stop r ≤ start r) →
    List.Chain' (fun a b => start b ≤ stop a) rows →
    List.Chain' (fun a b => stop b ≤ stop a) rows := by
  intro rows
  induction rows with
  | nil => simp
  | cons a l ih =>
    intro hmem hchain
    rw [List.chain'_cons'] at hchain ⊢
    obtain ⟨hhead, htail⟩ := hchain
    refine ⟨fun b hb => ?_, ih (fun r hr => hmem r (List.mem_cons_of_mem _ hr)) htail⟩
    exact le_trans (hmem b (List.mem_cons_of_mem _ (List.mem_of_mem_head? hb))) (hhead b hb)

/-- The simple-schedule step raises exactly when the computed new balance
exceeds the entering balance, and only from the second period on. -/
lemma simpleStep_error_iff (rate pay aOn : ℚ) (s : SimpleState) :
    (∃ e, simpleStep rate pay aOn s = Except.error e) ↔
      1 ≤ s.period ∧ s.balance < s.balance -
        principalPaymentOf s.balance (pay + simpleAddOn aOn s) (simpleInterest rate s) := by
  constructor
  · rintro ⟨e, he⟩
    by_cases hcond : 1 ≤ s.period ∧ s.balance < s.balance -
        principalPaymentOf s.balance (pay + simpleAddOn aOn s) (simpleInterest rate s)
    · exact hcond
    · exfalso
      simp only [simpleStep, simpleInterest, simpleAddOn] at he hcond
      rw [if_neg hcond] at he
      simp at he
  · intro hcond
    refine ⟨"Remaining balance is not decreasing, something is wrong", ?_⟩
    simp only [simpleStep, simpleInterest, simpleAddOn] at hcond ⊢
    rw [if_pos hcond]

end Calculations

/-- C7: the balance-non-increasing check.  The simple-schedule step raises
exactly when the computed new balance exceeds the entering balance (from the
second period on); from any non-negative starting debt none of the schedule
variants ever raises that error, and every completed schedule has
non-increasing recorded remaining balances — zero decrease is permitted,
increase never occurs.  The variable-rate mortgage variant has no such check
and indeed never errs (beyond its input-length validation) while keeping its
recorded balances non-increasing. -/
theorem c7_balance_invariant :
    (∀ (rate pay aOn : ℚ) (s : Calculations.SimpleState),
        (∃ e, Calculations.simpleStep rate pay aOn s = Except.error e) ↔
          1 ≤ s.period ∧ s.balance < s.balance -
            Calculations.principalPaymentOf s.balance (pay + Calculations.simpleAddOn aOn s)
              (Calculations.simpleInterest rate s)) ∧
    (∀ (sy : Int) (sm : Nat) (debt rate pay aOn : ℚ) (fuel : Nat), 0 ≤ debt →
        (∀ e, Calculations.calculate_loan_schedule_simple sy sm debt rate pay aOn fuel ≠
            Calculations.RunResult.err e) ∧
        (∀ rows, Calculations.calculate_loan_schedule_simple sy sm debt rate pay aOn fuel =
              Calculations.RunResult.ok rows →
            List.Chain'
              (fun a b => b.remaining_principal_balance ≤ a.remaining_principal_balance)
              rows)) ∧
    (∀ (sy : Int) (sm : Nat) (debt : ℚ) (rd pd : List (Nat × ℚ)) (ro po aOn : ℚ)
        (fuel : Nat), 0 ≤ debt →
        (∀ e, Calculations.calculate_loan_schedule_variable_rates sy sm debt rd pd ro po aOn
              fuel ≠ Calculations.RunResult.err e) ∧
        (∀ rows, Calculations.calculate_loan_schedule_variable_rates sy sm debt rd pd ro po aOn
              fuel = Calculations.RunResult.ok rows →
            List.Chain'
              (fun a b => b.remaining_principal_balance ≤ a.remaining_principal_balance)
              rows)) ∧
    (∀ (sy : Int) (sm : Nat) (debt rate : ℚ) (years : Nat) (aOn : ℚ)
        (tup : Option Calculations.TopUpStrategy), 0 ≤ debt →
        ∃ rows, Calculations.calculate_standard_mortgage_schedule sy sm debt rate years aOn
              tup = Except.ok (rows, Calculations.calculate_monthly_payment debt rate years) ∧
          List.Chain'
            (fun a b => b.remaining_principal_balance ≤ a.remaining_principal_balance)
            rows) ∧
    (∀ (sy : Int) (sm : Nat) (debt : ℚ) (rates : List ℚ) (years : Nat) (aOn : ℚ)
        (tup : Option Calculations.TopUpStrategy), 0 ≤ debt → rates.length = 6 →
        ∃ rows, Calculations.calculate_variable_rate_mortgage_schedule sy sm debt rates years
              aOn tup = Except.ok rows ∧
          List.Chain' (fun a b => b.ending_balance ≤ a.ending_balance) rows) := by
  refine ⟨Calculations.simpleStep_error_iff, ?_, ?_, ?_, ?_⟩
  · intro sy sm debt rate pay aOn fuel hb
    rcases Calculations.simpleLoop_run rate pay aOn fuel
        { year := sy, month := sm, balance := debt, period := 0 } hb with
      hfo | ⟨rows, hok, hmem, hchain, -⟩
    · constructor
      · intro e he
        rw [Calculations.calculate_loan_schedule_simple, hfo] at he
        cases he
      · intro rows hrows
        rw [Calculations.calculate_loan_schedule_simple, hfo] at hrows
        cases hrows
    · constructor
      · intro e he
        rw [Calculations.calculate_loan_schedule_simple, hok] at he
        cases he
      · intro rows2 hrows
        rw [Calculations.calculate_loan_schedule_simple, hok] at hrows
        cases hrows
        exact Calculations.chain_stop_mono _ _ rows
          (fun r hr => (hmem r hr).2)
          (hchain.imp fun a b h => le_of_eq h)
  · intro sy sm debt rd pd ro po aOn fuel hb
    rcases Calculations.varLoop_run rd pd ro po aOn fuel
        { year := sy, month := sm, balance := debt, period := 0, loan_year := 1 } hb with
      hfo | ⟨rows, hok, hmem, hchain, -⟩
    · constructor
      · intro e he
        rw [Calculations.calculate_loan_schedule_variable_rates, hfo] at he
        cases he
      · intro rows hrows
        rw [Calculations.calculate_loan_schedule_variable_rates, hfo] at hrows
        cases hrows
    · constructor
      · intro e he
        rw [Calculations.calculate_loan_schedule_variable_rates, hok] at he
        cases he
      · intro rows2 hrows
        rw [Calculations.calculate_loan_schedule_variable_rates, hok] at hrows
        cases hrows
        exact Calculations.chain_stop_mono _ _ rows
          (fun r hr => (hmem r hr).2)
          (hchain.imp fun a b h => le_of_eq h)
  · intro sy sm debt rate years aOn tup hb
    obtain ⟨rows, sEnd, hok, -, -, hmem, hchain, -⟩ :=
      Calculations.mortgageLoop_run rate (Calculations.calculate_monthly_payment debt rate years)
        aOn tup (years * 12) { year := sy, month := sm, balance := debt, period := 0 } hb
    refine ⟨rows, ?_, ?_⟩
    · rw [Calculations.calculate_standard_mortgage_schedule]
      rw [hok]
    · exact Calculations.chain_stop_mono _ _ rows
        (fun r hr => (hmem r hr).2)
        (hchain.imp fun a b h => le_of_eq h)
  · intro sy sm debt rates years aOn tup hb hlen
    obtain ⟨v1, v2, -⟩ := Calculations.vmYears_run sy sm rates years aOn tup years 1 debt hb
    refine ⟨Calculations.vmYears sy sm rates years aOn tup 1 years debt, ?_, ?_⟩
    · rw [Calculations.calculate_variable_rate_mortgage_schedule, if_neg (by simp [hlen])]
    · exact Calculations.chain_stop_mono _ _ _ (fun r hr => (v1 r hr).2) v2

/-- C7 witness: a concrete run (debt 100, zero rate, payment 100) completes
without error with non-increasing balances, and the step error is reachable
exactly at a balance increase (negative-balance state). -/
theorem c7_balance_invariant_witness :
    (0 : ℚ) ≤ 100 ∧
      (∀ e, Calculations.calculate_loan_schedule_simple 2026 1 100 0 100 0 10 ≠
          Calculations.RunResult.err e) ∧
      (∀ rows, Calculations.calculate_loan_schedule_simple 2026 1 100 0 100 0 10 =
            Calculations.RunResult.ok rows →
          List.Chain'
            (fun a b => b.remaining_principal_balance ≤ a.remaining_principal_balance)
            rows) :=
  ⟨by norm_num, c7_balance_invariant.2.1 2026 1 100 0 100 0 10 (by norm_num)⟩

namespace Calculations

/-- First row of a standard-mortgage run with positive balance and at least
one period left: it records the initial balance, monthly-convention interest
on it, and the frozen calculated payment. -/
lemma mortgageLoop_head (rate pay aOn : ℚ) (tup : Option TopUpStrategy) (left : Nat)
    (s : MortState) (hpos : 0 < s.balance) (hleft : 1 ≤ left) :
    ∃ row rows0 sEnd, mortgageLoop rate pay aOn tup left s = Except.ok (row :: rows0, sEnd) ∧
      row.starting_principal_balance = s.balance ∧
      row.interest_payment = mortInterest rate s ∧
      row.calculated_payment = pay := by
  obtain ⟨left0, rfl⟩ : ∃ l, left = l + 1 := ⟨left - 1, by omega⟩
  obtain ⟨row, s2, hstep, hrstart, hrrem, hs2bal, hrpp, hrint, -, -, hrcp, -, -, -, -, -⟩ :=
    mortStep_spec rate pay aOn tup s (le_of_lt hpos)
  have hb2 : 0 ≤ s2.balance := by
    have h1 : 0 ≤ row.principal_payment := by
      rw [hrpp]; exact principalPaymentOf_nonneg _ _ _ (le_of_lt hpos)
    have h2 : row.principal_payment ≤ s.balance := by
      rw [hrpp]; exact principalPaymentOf_le_balance _ _ _ (le_of_lt hpos)
    rw [hs2bal]; linarith
  obtain ⟨rows, sEnd, hok, -, -, -, -, -⟩ := mortgageLoop_run rate pay aOn tup left0 s2 hb2
  refine ⟨row, rows, sEnd, ?_, hrstart, hrint, hrcp⟩
  simp only [mortgageLoop, hpos, if_true, hstep, hok]

end Calculations

/-- C4: interest-accrual conventions.  The manual-payment calculators accrue
`balance * annualRate * daysInCalendarMonth / 365` per period while the
mortgage-formula calculators accrue `balance * annualRate / 12`; in
particular the first period of the 4,300,000 at 4 percent calculated-payment
schedule accrues `4300000 * 0.04 / 12` (the spec's 14,333.33 is its
two-decimal rendering; the exact value is 43000/3). -/
theorem c4_interest_conventions :
    (∀ (rate pay aOn : ℚ) (s : Calculations.SimpleState), 0 ≤ s.balance →
        ∃ row s2, Calculations.simpleStep rate pay aOn s = Except.ok (row, s2) ∧
          row.interest_payment =
            s.balance * rate * (Calculations.daysInMonth s.year s.month : ℚ) / 365) ∧
    (∀ (rd pd : List (Nat × ℚ)) (ro po aOn : ℚ) (s : Calculations.VarState), 0 ≤ s.balance →
        ∃ row s2, Calculations.varStep rd pd ro po aOn s = Except.ok (row, s2) ∧
          row.interest_payment = s.balance * Calculations.dictGet rd ro s.loan_year *
            (Calculations.daysInMonth s.year s.month : ℚ) / 365) ∧
    (∀ (rate pay aOn : ℚ) (tup : Option Calculations.TopUpStrategy)
        (s : Calculations.MortState), 0 ≤ s.balance →
        ∃ row s2, Calculations.mortStep rate pay aOn tup s = Except.ok (row, s2) ∧
          row.interest_payment = s.balance * (rate / 12)) ∧
    (∀ (sm ly : Nat) (rate pay aOn : ℚ) (tup : Option Calculations.TopUpStrategy)
        (left mIdx : Nat) (cy : Int) (bal : ℚ) (rows : List Calculations.VMRec) (fb : ℚ),
        0 ≤ bal →
        Calculations.vmMonths sm ly rate pay aOn tup mIdx left cy bal = (rows, fb) →
        ∀ r ∈ rows, r.interest_paid = r.starting_balance * (rate / 12)) ∧
    (∃ rows r, Calculations.calculate_standard_mortgage_schedule 2026 1 4300000 (1 / 25) 40 0
          Option.none =
          Except.ok (rows, Calculations.calculate_monthly_payment 4300000 (1 / 25) 40) ∧
        rows.head? = some r ∧
        r.interest_payment = 4300000 * (4 / 100) / 12) := by
  refine ⟨?_, ?_, ?_, ?_, ?_⟩
  · intro rate pay aOn s hb
    obtain ⟨row, s2, hstep, -, -, -, -, hint, -⟩ := Calculations.simpleStep_spec rate pay aOn s hb
    exact ⟨row, s2, hstep, hint⟩
  · intro rd pd ro po aOn s hb
    obtain ⟨row, s2, hstep, -, -, -, -, hint, -⟩ :=
      Calculations.varStep_spec rd pd ro po aOn s hb
    exact ⟨row, s2, hstep, hint⟩
  · intro rate pay aOn tup s hb
    obtain ⟨row, s2, hstep, -, -, -, -, hint, -⟩ :=
      Calculations.mortStep_spec rate pay aOn tup s hb
    exact ⟨row, s2, hstep, hint⟩
  · intro sm ly rate pay aOn tup left mIdx cy bal rows fb hb heq
    obtain ⟨-, -, -, -, -, -, -, -, h9⟩ :=
      Calculations.vmMonths_run sm ly rate pay aOn tup left mIdx cy bal hb rows fb heq
    exact fun r hr => ((h9 r hr).2.2).1
  · obtain ⟨row, rows0, sEnd, hok, -, hint, -⟩ :=
      Calculations.mortgageLoop_head (1 / 25)
        (Calculations.calculate_monthly_payment 4300000 (1 / 25) 40) 0 Option.none (40 * 12)
        { year := 2026, month := 1, balance := 4300000, period := 0 }
        (by norm_num) (by norm_num)
    refine ⟨row :: rows0, row, ?_, rfl, ?_⟩
    · rw [Calculations.calculate_standard_mortgage_schedule]
      rw [hok]
    · rw [hint]
      norm_num [Calculations.mortInterest]

/-- C4 witness: the daily-proration convention evaluated at a concrete
simple-calculator state (January 2026, 31 days). -/
theorem c4_interest_conventions_witness :
    (0 : ℚ) ≤ 100 ∧
      ∃ row s2,
        Calculations.simpleStep (1 / 10) 50 0
            { year := 2026, month := 1, balance := 100, period := 0 } =
          Except.ok (row, s2) ∧
        row.interest_payment =
          100 * (1 / 10) * (Calculations.daysInMonth 2026 1 : ℚ) / 365 :=
  ⟨by norm_num,
    c4_interest_conventions.1 (1 / 10) 50 0
      { year := 2026, month := 1, balance := 100, period := 0 } (by norm_num)⟩

namespace Calculations

/-- Calendar stamps of the simple schedule: because lines 51-55 advance the
calendar before lines 61-62 record it, row `i` carries the calendar advanced
`i+1` times from the start anchor. -/
lemma simpleLoop_calendar (rate pay aOn : ℚ) :
    ∀ (fuel : Nat) (s : SimpleState) (rows : List SimpleRec), 0 ≤ s.balance →
    simpleLoop rate pay aOn fuel s = RunResult.ok rows →
    ∀ (i : Nat) (r : SimpleRec), rows[i]? = some r →
      (r.year, r.month) = iterCalendar (i + 1) (s.year, s.month) := by
  intro fuel
  induction fuel with
  | zero =>
    intro s rows hb heq i r hir
    by_cases hpos : 0 < s.balance
    · simp [simpleLoop, hpos] at heq
    · simp [simpleLoop, hpos] at heq
      subst heq
      simp at hir
  | succ fuel ih =>
    intro s rows hb heq i r hir
    by_cases hpos : 0 < s.balance
    · obtain ⟨row, s2, hstep, -, -, hs2bal, hrpp, -, -, hry, hrm, hs2y, hs2m, -⟩ :=
        simpleStep_spec rate pay aOn s hb
      have hpp0 : 0 ≤ row.principal_payment := by
        rw [hrpp]; exact principalPaymentOf_nonneg _ _ _ hb
      have hppb : row.principal_payment ≤ s.balance := by
        rw [hrpp]; exact principalPaymentOf_le_balance _ _ _ hb
      have hb2 : 0 ≤ s2.balance := by rw [hs2bal]; linarith
      have hcal : (s2.year, s2.month) = advanceCalendar s.year s.month := by
        rw [hs2y, hs2m]
      cases hres : simpleLoop rate pay aOn fuel s2 with
      | ok rows2 =>
        simp only [simpleLoop, hpos, if_true, hstep, hres] at heq
        cases heq
        cases i with
        | zero =>
          simp only [List.getElem?_cons_zero, Option.some.injEq] at hir
          subst hir
          rw [hry, hrm]
          rfl
        | succ i =>
          simp only [List.getElem?_cons_succ] at hir
          have hrec := ih s2 rows2 hb2 hres i r hir
          rw [hrec, hcal]
          rfl
      | err e =>
        simp only [simpleLoop, hpos, if_true, hstep, hres] at heq
        cases heq
      | fuelOut =>
        simp only [simpleLoop, hpos, if_true, hstep, hres] at heq
        cases heq
    · simp [simpleLoop, hpos] at heq
      subst heq
      simp at hir

/-- Calendar stamps of the variable-rates schedule: lines 164-165 record the
calendar before lines 167-171 advance it, so row `i` carries the calendar
advanced exactly `i` times from the start anchor. -/
lemma varLoop_calendar (rd pd : List (Nat × ℚ)) (ro po aOn : ℚ) :
    ∀ (fuel : Nat) (s : VarState) (rows : List VarRec), 0 ≤ s.balance →
    varLoop rd pd ro po aOn fuel s = RunResult.ok rows →
    ∀ (i : Nat) (r : VarRec), rows[i]? = some r →
      (r.year, r.month) = iterCalendar i (s.year, s.month) := by
  intro fuel
  induction fuel with
  | zero =>
    intro s rows hb heq i r hir
    by_cases hpos : 0 < s.balance
    · simp [varLoop, hpos] at heq
    · simp [varLoop, hpos] at heq
      subst heq
      simp at hir
  | succ fuel ih =>
    intro s rows hb heq i r hir
    by_cases hpos : 0 < s.balance
    · obtain ⟨row, s2, hstep, -, -, hs2bal, hrpp, -, -, -, -, hry, hrm, hs2y, hs2m, -, -⟩ :=
        varStep_spec rd pd ro po aOn s hb
      have hpp0 : 0 ≤ row.principal_payment := by
        rw [hrpp]; exact principalPaymentOf_nonneg _ _ _ hb
      have hppb : row.principal_payment ≤ s.balance := by
        rw [hrpp]; exact principalPaymentOf_le_balance _ _ _ hb
      have hb2 : 0 ≤ s2.balance := by rw [hs2bal]; linarith
      have hcal : (s2.year, s2.month) = advanceCalendar s.year s.month := by
        rw [hs2y, hs2m]
      cases hres : varLoop rd pd ro po aOn fuel s2 with
      | ok rows2 =>
        simp only [varLoop, hpos, if_true, hstep, hres] at heq
        cases heq
        cases i with
        | zero =>
          simp only [List.getElem?_cons_zero, Option.some.injEq] at hir
          subst hir
          rw [hry, hrm]
          rfl
        | succ i =>
          simp only [List.getElem?_cons_succ] at hir
          have hrec := ih s2 rows2 hb2 hres i r hir
          rw [hrec, hcal]
          rfl
      | err e =>
        simp only [varLoop, hpos, if_true, hstep, hres] at heq
        cases heq
      | fuelOut =>
        simp only [varLoop, hpos, if_true, hstep, hres] at heq
        cases heq
    · simp [varLoop, hpos] at heq
      subst heq
      simp at hir

/-- Calendar stamps of the standard-mortgage schedule: rows record the
calendar of their own period (append before advance, lines 302-309). -/
lemma mortgageLoop_calendar (rate pay aOn : ℚ) (tup : Option TopUpStrategy) :
    ∀ (left : Nat) (s : MortState) (rows : List MortRec) (sEnd : MortState), 0 ≤ s.balance →
    mortgageLoop rate pay aOn tup left s = Except.ok (rows, sEnd) →
    ∀ (i : Nat) (r : MortRec), rows[i]? = some r →
      (r.year, r.month) = iterCalendar i (s.year, s.month) := by
  intro left
  induction left with
  | zero =>
    intro s rows sEnd hb heq i r hir
    simp only [mortgageLoop, Except.ok.injEq, Prod.mk.injEq] at heq
    obtain ⟨rfl, rfl⟩ := heq
    simp at hir
  | succ left ih =>
    intro s rows sEnd hb heq i r hir
    by_cases hpos : 0 < s.balance
    · obtain ⟨row, s2, hstep, -, -, hs2bal, hrpp, -, -, -, -, hry, hrm, hs2y, hs2m, -⟩ :=
        mortStep_spec rate pay aOn tup s hb
      have hpp0 : 0 ≤ row.principal_payment := by
        rw [hrpp]; exact principalPaymentOf_nonneg _ _ _ hb
      have hppb : row.principal_payment ≤ s.balance := by
        rw [hrpp]; exact principalPaymentOf_le_balance _ _ _ hb
      have hb2 : 0 ≤ s2.balance := by rw [hs2bal]; linarith
      have hcal : (s2.year, s2.month) = advanceCalendar s.year s.month := by
        rw [hs2y, hs2m]
      cases hres : mortgageLoop rate pay aOn tup left s2 with
      | ok p =>
        obtain ⟨rows2, sEnd2⟩ := p
        simp only [mortgageLoop, hpos, if_true, hstep, hres, Except.ok.injEq,
          Prod.mk.injEq] at heq
        obtain ⟨rfl, rfl⟩ := heq
        cases i with
        | zero =>
          simp only [List.getElem?_cons_zero, Option.some.injEq] at hir
          subst hir
          rw [hry, hrm]
          rfl
        | succ i =>
          simp only [List.getElem?_cons_succ] at hir
          have hrec := ih s2 rows2 sEnd2 hb2 hres i r hir
          rw [hrec, hcal]
          rfl
      | error e =>
        simp only [mortgageLoop, hpos, if_true, hstep, hres] at heq
        cases heq
    · simp only [mortgageLoop, hpos, if_false, Except.ok.injEq, Prod.mk.injEq] at heq
      obtain ⟨rfl, rfl⟩ := heq
      simp at hir

end Calculations

/-- C10 counterexample: in the simple calculator started at (2026, 1), the
first emitted row carries calendar (2026, 2) — the calendar is advanced
before the row's year/month are captured — so period 1 does not carry
(startYear, startMonth). -/
theorem c10_counterexample :
    Calculations.firstRowYearMonth
        (Calculations.calculate_loan_schedule_simple 2026 1 100 0 100 0 10) =
      some (2026, 2) ∧
    ((2026, 2) : Int × Nat) ≠ (2026, 1) := by
  constructor
  · norm_num [Calculations.calculate_loan_schedule_simple, Calculations.simpleLoop,
      Calculations.simpleStep, Calculations.principalPaymentOf, Calculations.daysInMonth,
      Calculations.isLeapYear, Calculations.advanceCalendar, Calculations.firstRowYearMonth]
  · decide

/-- C10 amended: in the variable-rates and standard-mortgage variants each
row carries its own period's calendar — row `i` carries the start anchor
advanced `i` times, so period 1 carries (startYear, startMonth) — and the
calendar (month wrapping 12 to 1 with a year increment) advances once per
emitted row; in the simple variant the calendar is advanced before the
row's year/month are captured, so row `i` carries the anchor advanced
`i+1` times (period 1 carries the month after the start). -/
theorem c10_calendar_amended :
    (∀ (y : Int), Calculations.advanceCalendar y 12 = (y + 1, 1)) ∧
    (∀ (y : Int) (m : Nat), m ≠ 12 → Calculations.advanceCalendar y m = (y, m + 1)) ∧
    (∀ (sy : Int) (sm : Nat) (debt rate pay aOn : ℚ) (fuel : Nat)
        (rows : List Calculations.SimpleRec), 0 ≤ debt →
        Calculations.calculate_loan_schedule_simple sy sm debt rate pay aOn fuel =
          Calculations.RunResult.ok rows →
        ∀ (i : Nat) (r : Calculations.SimpleRec), rows[i]? = some r →
          (r.year, r.month) = Calculations.iterCalendar (i + 1) (sy, sm)) ∧
    (∀ (sy : Int) (sm : Nat) (debt : ℚ) (rd pd : List (Nat × ℚ)) (ro po aOn : ℚ)
        (fuel : Nat) (rows : List Calculations.VarRec), 0 ≤ debt →
        Calculations.calculate_loan_schedule_variable_rates sy sm debt rd pd ro po aOn fuel =
          Calculations.RunResult.ok rows →
        ∀ (i : Nat) (r : Calculations.VarRec), rows[i]? = some r →
          (r.year, r.month) = Calculations.iterCalendar i (sy, sm)) ∧
    (∀ (sy : Int) (sm : Nat) (debt rate : ℚ) (years : Nat) (aOn : ℚ)
        (tup : Option Calculations.TopUpStrategy) (rows : List Calculations.MortRec)
        (mp : ℚ), 0 ≤ debt →
        Calculations.calculate_standard_mortgage_schedule sy sm debt rate years aOn tup =
          Except.ok (rows, mp) →
        ∀ (i : Nat) (r : Calculations.MortRec), rows[i]? = some r →
          (r.year, r.month) = Calculations.iterCalendar i (sy, sm)) := by
  refine ⟨fun y => rfl, fun y m hm => ?_, ?_, ?_, ?_⟩
  · rw [Calculations.advanceCalendar, if_neg hm]
  · intro sy sm debt rate pay aOn fuel rows hb heq i r hir
    exact Calculations.simpleLoop_calendar rate pay aOn fuel
      { year := sy, month := sm, balance := debt, period := 0 } rows hb heq i r hir
  · intro sy sm debt rd pd ro po aOn fuel rows hb heq i r hir
    exact Calculations.varLoop_calendar rd pd ro po aOn fuel
      { year := sy, month := sm, balance := debt, period := 0, loan_year := 1 } rows hb heq
      i r hir
  · intro sy sm debt rate years aOn tup rows mp hb heq i r hir
    rw [Calculations.calculate_standard_mortgage_schedule] at heq
    rcases hres : Calculations.mortgageLoop rate
        (Calculations.calculate_monthly_payment debt rate years) aOn tup (years * 12)
        { year := sy, month := sm, balance := debt, period := 0 } with e | p
    · rw [hres] at heq
      cases heq
    · obtain ⟨rows2, sEnd2⟩ := p
      rw [hres] at heq
      simp only [Except.ok.injEq, Prod.mk.injEq] at heq
      obtain ⟨rfl, rfl⟩ := heq
      exact Calculations.mortgageLoop_calendar rate
        (Calculations.calculate_monthly_payment debt rate years) aOn tup (years * 12)
        { year := sy, month := sm, balance := debt, period := 0 } rows2 sEnd2 hb hres i r hir

/-- C10 amended witness: a concrete one-period simple run, with the amended
calendar law applied to it: its only row carries the anchor advanced once. -/
theorem c10_calendar_amended_witness :
    (0 : ℚ) ≤ 100 ∧
      (∀ (i : Nat) (r : Calculations.SimpleRec),
        [({ starting_principal_balance := 100, principal_payment := 100,
            interest_payment := 0, total_payment := 100, add_on := 0,
            remaining_principal_balance := 0, year := 2026,
            month := 2 } : Calculations.SimpleRec)][i]? = some r →
          (r.year, r.month) = Calculations.iterCalendar (i + 1) (2026, 1)) :=
  ⟨by norm_num,
    c10_calendar_amended.2.2.1 2026 1 100 0 100 0 10
      [{ starting_principal_balance := 100, principal_payment := 100,
         interest_payment := 0, total_payment := 100, add_on := 0,
         remaining_principal_balance := 0, year := 2026, month := 2 }]
      (by norm_num)
      (by norm_num [Calculations.calculate_loan_schedule_simple, Calculations.simpleLoop,
        Calculations.simpleStep, Calculations.principalPaymentOf, Calculations.daysInMonth,
        Calculations.isLeapYear, Calculations.advanceCalendar])⟩

/-- C9 counterexample: in the simple calculator with debt 0.005, zero rate
and payment 0.001, period 1 records a remaining balance of 0.004 — below the
0.01 epsilon yet not clamped to 0 (no clamp exists in this variant). -/
theorem c9_counterexample :
    Calculations.firstRemainingBalance
        (Calculations.calculate_loan_schedule_simple 2026 1 (1 / 200) 0 (1 / 1000) 0 10) =
      some (1 / 250) ∧
    (1 / 250 : ℚ) < 1 / 100 ∧ (1 / 250 : ℚ) ≠ 0 := by
  refine ⟨?_, by norm_num, by norm_num⟩
  norm_num [Calculations.calculate_loan_schedule_simple, Calculations.simpleLoop,
    Calculations.simpleStep, Calculations.principalPaymentOf, Calculations.daysInMonth,
    Calculations.isLeapYear, Calculations.advanceCalendar,
    Calculations.firstRemainingBalance]

/-- C9 amended: in every schedule variant the recorded ending balances are
never negative; the 0.01-epsilon clamp exists only in the variable-rate
mortgage variant, where it zeroes the loop balance after the row is emitted
and stops the run — so all rows before the last stay strictly above 0.01,
and when the last row's recorded ending balance is at most 0.01 the loop
balance (not the row) is clamped to exactly 0; the other variants record
sub-epsilon balances unclamped. -/
theorem c9_epsilon_amended :
    (∀ (sy : Int) (sm : Nat) (debt rate pay aOn : ℚ) (fuel : Nat)
        (rows : List Calculations.SimpleRec), 0 ≤ debt →
        Calculations.calculate_loan_schedule_simple sy sm debt rate pay aOn fuel =
          Calculations.RunResult.ok rows →
        ∀ r ∈ rows, 0 ≤ r.remaining_principal_balance) ∧
    (∀ (sy : Int) (sm : Nat) (debt : ℚ) (rd pd : List (Nat × ℚ)) (ro po aOn : ℚ)
        (fuel : Nat) (rows : List Calculations.VarRec), 0 ≤ debt →
        Calculations.calculate_loan_schedule_variable_rates sy sm debt rd pd ro po aOn fuel =
          Calculations.RunResult.ok rows →
        ∀ r ∈ rows, 0 ≤ r.remaining_principal_balance) ∧
    (∀ (sy : Int) (sm : Nat) (debt rate : ℚ) (years : Nat) (aOn : ℚ)
        (tup : Option Calculations.TopUpStrategy) (rows : List Calculations.MortRec) (mp : ℚ),
        0 ≤ debt →
        Calculations.calculate_standard_mortgage_schedule sy sm debt rate years aOn tup =
          Except.ok (rows, mp) →
        ∀ r ∈ rows, 0 ≤ r.remaining_principal_balance) ∧
    (∀ (sy : Int) (sm : Nat) (debt : ℚ) (rates : List ℚ) (years : Nat) (aOn : ℚ)
        (tup : Option Calculations.TopUpStrategy) (rows : List Calculations.VMRec), 0 ≤ debt →
        Calculations.calculate_variable_rate_mortgage_schedule sy sm debt rates years aOn tup =
          Except.ok rows →
        ∀ r ∈ rows, 0 ≤ r.ending_balance) ∧
    (∀ (sm ly : Nat) (rate pay aOn : ℚ) (tup : Option Calculations.TopUpStrategy)
        (left mIdx : Nat) (cy : Int) (bal : ℚ) (rows : List Calculations.VMRec) (fb : ℚ),
        0 ≤ bal →
        Calculations.vmMonths sm ly rate pay aOn tup mIdx left cy bal = (rows, fb) →
        (∀ r ∈ rows.dropLast, 1 / 100 < r.ending_balance) ∧
        (∀ r ∈ rows.getLast?, r.ending_balance ≤ 1 / 100 → fb = 0)) := by
  refine ⟨?_, ?_, ?_, ?_, ?_⟩
  · intro sy sm debt rate pay aOn fuel rows hb heq
    rcases Calculations.simpleLoop_run rate pay aOn fuel
        { year := sy, month := sm, balance := debt, period := 0 } hb with
      hfo | ⟨rows2, hok, hmem, -, -⟩
    · rw [Calculations.calculate_loan_schedule_simple, hfo] at heq
      cases heq
    · rw [Calculations.calculate_loan_schedule_simple, hok] at heq
      cases heq
      exact fun r hr => (hmem r hr).1
  · intro sy sm debt rd pd ro po aOn fuel rows hb heq
    rcases Calculations.varLoop_run rd pd ro po aOn fuel
        { year := sy, month := sm, balance := debt, period := 0, loan_year := 1 } hb with
      hfo | ⟨rows2, hok, hmem, -, -⟩
    · rw [Calculations.calculate_loan_schedule_variable_rates, hfo] at heq
      cases heq
    · rw [Calculations.calculate_loan_schedule_variable_rates, hok] at heq
      cases heq
      exact fun r hr => (hmem r hr).1
  · intro sy sm debt rate years aOn tup rows mp hb heq
    obtain ⟨rows2, sEnd, hok, -, -, hmem, -, -⟩ :=
      Calculations.mortgageLoop_run rate (Calculations.calculate_monthly_payment debt rate years)
        aOn tup (years * 12) { year := sy, month := sm, balance := debt, period := 0 } hb
    rw [Calculations.calculate_standard_mortgage_schedule, hok] at heq
    simp only [Except.ok.injEq, Prod.mk.injEq] at heq
    obtain ⟨rfl, rfl⟩ := heq
    exact fun r hr => (hmem r hr).1
  · intro sy sm debt rates years aOn tup rows hb heq
    rw [Calculations.calculate_variable_rate_mortgage_schedule] at heq
    by_cases hlen : rates.length ≠ 6
    · rw [if_pos hlen] at heq
      cases heq
    · rw [if_neg hlen] at heq
      simp only [Except.ok.injEq] at heq
      subst heq
      obtain ⟨v1, -, -⟩ := Calculations.vmYears_run sy sm rates years aOn tup years 1 debt hb
      exact fun r hr => (v1 r hr).1
  · intro sm ly rate pay aOn tup left mIdx cy bal rows fb hb heq
    obtain ⟨-, -, -, -, -, -, h7, h8, -⟩ :=
      Calculations.vmMonths_run sm ly rate pay aOn tup left mIdx cy bal hb rows fb heq
    refine ⟨h8, fun r hr hle => ?_⟩
    rcases h7 r hr with ⟨hfb0, -⟩ | ⟨-, hgt⟩
    · exact hfb0
    · exact absurd hle (not_le.mpr hgt)

/-- C9 amended witness: non-negativity applied to a concrete one-period
simple run. -/
theorem c9_epsilon_amended_witness :
    (0 : ℚ) ≤ 100 ∧
      (∀ r : Calculations.SimpleRec,
        r ∈ [({ starting_principal_balance := 100, principal_payment := 100,
                interest_payment := 0, total_payment := 100, add_on := 0,
                remaining_principal_balance := 0, year := 2026,
                month := 2 } : Calculations.SimpleRec)] →
          0 ≤ r.remaining_principal_balance) :=
  ⟨by norm_num,
    c9_epsilon_amended.1 2026 1 100 0 100 0 10
      [{ starting_principal_balance := 100, principal_payment := 100,
         interest_payment := 0, total_payment := 100, add_on := 0,
         remaining_principal_balance := 0, year := 2026, month := 2 }]
      (by norm_num)
      (by norm_num [Calculations.calculate_loan_schedule_simple, Calculations.simpleLoop,
        Calculations.simpleStep, Calculations.principalPaymentOf, Calculations.daysInMonth,
        Calculations.isLeapYear, Calculations.advanceCalendar])⟩

namespace Calculations

/-- Every calendar month has at least 28 days. -/
lemma daysInMonth_ge_28 (y : Int) (m : Nat) (h1 : 1 ≤ m) (h2 : m ≤ 12) :
    28 ≤ daysInMonth y m := by
  interval_cases m <;> norm_num [daysInMonth] <;> split <;> norm_num

/-- The calendar advance keeps the month in 1..12. -/
lemma advanceCalendar_month_bounds (y : Int) (m : Nat) (h1 : 1 ≤ m) (h2 : m ≤ 12) :
    1 ≤ (advanceCalendar y m).2 ∧ (advanceCalendar y m).2 ≤ 12 := by
  rw [advanceCalendar]
  split
  · exact ⟨le_refl 1, by norm_num⟩
  · next h => exact ⟨by omega, by omega⟩

/-- When the fixed payment (with no add-on) never covers even the cheapest
month's interest, the simple-schedule loop makes no progress: the balance is
unchanged every period and the loop runs forever (every fuel is exhausted). -/
lemma simpleLoop_stuck (rate pay : ℚ) (hr : 0 ≤ rate) :
    ∀ (fuel : Nat) (s : SimpleState), 0 < s.balance → 1 ≤ s.month → s.month ≤ 12 →
    pay ≤ s.balance * rate * 28 / 365 →
    simpleLoop rate pay 0 fuel s = RunResult.fuelOut := by
  intro fuel
  induction fuel with
  | zero =>
    intro s hpos h1 h2 hpay
    simp [simpleLoop, hpos]
  | succ fuel ih =>
    intro s hpos h1 h2 hpay
    have hb : 0 ≤ s.balance := le_of_lt hpos
    have hd : (28 : ℚ) ≤ (daysInMonth s.year s.month : ℚ) := by
      exact_mod_cast daysInMonth_ge_28 s.year s.month h1 h2
    have hbr : 0 ≤ s.balance * rate := mul_nonneg hb hr
    have hint : s.balance * rate * 28 / 365 ≤ simpleInterest rate s := by
      rw [simpleInterest]
      gcongr
    have hadd : simpleAddOn 0 s = 0 := by
      rw [simpleAddOn]
      split <;> rfl
    have havail : pay + simpleAddOn 0 s ≤ simpleInterest rate s := by
      rw [hadd, add_zero]
      linarith
    have hpp : principalPaymentOf s.balance (pay + simpleAddOn 0 s) (simpleInterest rate s)
        = 0 := by
      rw [principalPaymentOf, if_pos havail]
    obtain ⟨row, s2, hstep, -, -, hs2bal, hrpp, -, -, -, -, hs2y, hs2m, -⟩ :=
      simpleStep_spec rate pay 0 s hb
    have hs2 : s2.balance = s.balance := by rw [hs2bal, hrpp, hpp, sub_zero]
    obtain ⟨hm1, hm2⟩ := advanceCalendar_month_bounds s.year s.month h1 h2
    have hrec := ih s2 (by rw [hs2]; exact hpos) (by rw [hs2m]; exact hm1)
      (by rw [hs2m]; exact hm2) (by rw [hs2]; exact hpay)
    simp only [simpleLoop, hpos, if_true, hstep, hrec]

/-- When, for every loan-year, the dictionary payment (with no add-on)
cannot cover even the cheapest month's interest at that loan-year's rate,
the variable-rates manual loop makes no progress: the balance is unchanged
every period and the loop runs forever (every fuel is exhausted). -/
lemma varLoop_stuck (rd pd : List (Nat × ℚ)) (ro po : ℚ)
    (hr : ∀ ly, 0 ≤ dictGet rd ro ly) :
    ∀ (fuel : Nat) (s : VarState), 0 < s.balance → 1 ≤ s.month → s.month ≤ 12 →
    (∀ ly, dictGet pd po ly ≤ s.balance * dictGet rd ro ly * 28 / 365) →
    varLoop rd pd ro po 0 fuel s = RunResult.fuelOut := by
  intro fuel
  induction fuel with
  | zero =>
    intro s hpos h1 h2 hpay
    simp [varLoop, hpos]
  | succ fuel ih =>
    intro s hpos h1 h2 hpay
    have hb : 0 ≤ s.balance := le_of_lt hpos
    have hd : (28 : ℚ) ≤ (daysInMonth s.year s.month : ℚ) := by
      exact_mod_cast daysInMonth_ge_28 s.year s.month h1 h2
    have hbr : 0 ≤ s.balance * dictGet rd ro s.loan_year := mul_nonneg hb (hr s.loan_year)
    have hint : s.balance * dictGet rd ro s.loan_year * 28 / 365 ≤ varInterest rd ro s := by
      rw [varInterest]
      gcongr
    have hadd : varAddOn 0 s = 0 := by
      rw [varAddOn]
      split <;> rfl
    have havail : dictGet pd po s.loan_year + varAddOn 0 s ≤ varInterest rd ro s := by
      rw [hadd, add_zero]
      exact le_trans (hpay s.loan_year) hint
    have hpp : principalPaymentOf s.balance (dictGet pd po s.loan_year + varAddOn 0 s)
        (varInterest rd ro s) = 0 := by
      rw [principalPaymentOf, if_pos havail]
    obtain ⟨row, s2, hstep, -, -, hs2bal, hrpp, -, -, -, -, -, -, hs2y, hs2m, -, -⟩ :=
      varStep_spec rd pd ro po 0 s hb
    have hs2 : s2.balance = s.balance := by rw [hs2bal, hrpp, hpp, sub_zero]
    obtain ⟨hm1, hm2⟩ := advanceCalendar_month_bounds s.year s.month h1 h2
    have hrec := ih s2 (by rw [hs2]; exact hpos) (by rw [hs2m]; exact hm1)
      (by rw [hs2m]; exact hm2) (by rw [hs2]; exact hpay)
    simp only [varLoop, hpos, if_true, hstep, hrec]

/-- The variable-rate mortgage inner loop emits at most `left` rows. -/
lemma vmMonths_length (sm ly : Nat) (rate pay aOn : ℚ) (tup : Option TopUpStrategy) :
    ∀ (left mIdx : Nat) (cy : Int) (bal : ℚ),
    (vmMonths sm ly rate pay aOn tup mIdx left cy bal).1.length ≤ left := by
  intro left
  induction left with
  | zero =>
    intro mIdx cy bal
    rw [vmMonths_zero_eq]
    simp
  | succ left ih =>
    intro mIdx cy bal
    by_cases hpos : bal ≤ 0
    · rw [vmMonths_break_eq sm ly rate pay aOn tup mIdx left cy bal hpos]
      simp
    · rw [vmMonths_succ_eq sm ly rate pay aOn tup mIdx left cy bal hpos]
      by_cases hcl : bal - vmPP rate pay aOn tup mIdx bal ≤ 1 / 100
      · rw [if_pos hcl]
        simp
      · rw [if_neg hcl]
        simpa using Nat.succ_le_succ (ih (mIdx + 1) (vmCal sm mIdx cy).2
          (bal - vmPP rate pay aOn tup mIdx bal))

/-- The variable-rate mortgage outer loop emits at most `left * 12` rows. -/
lemma vmYears_length (sy : Int) (sm : Nat) (rates : List ℚ) (years : Nat) (aOn : ℚ)
    (tup : Option TopUpStrategy) :
    ∀ (left ly : Nat) (bal : ℚ),
    (vmYears sy sm rates years aOn tup ly left bal).length ≤ left * 12 := by
  intro left
  induction left with
  | zero =>
    intro ly bal
    rw [vmYears_zero_eq]
    simp
  | succ left ih =>
    intro ly bal
    rw [vmYears_succ_eq]
    rcases hM : vmYearMonths sy sm rates years aOn tup ly bal with ⟨rows1, fb⟩
    have hlen1 : rows1.length ≤ 12 := by
      have := vmMonths_length sm ly (vmYearRate rates ly)
        (calculate_monthly_payment bal (vmYearRate rates ly) (years - ly + 1)) aOn tup
        12 0 (sy + (ly : Int) - 1) bal
      rw [show vmMonths sm ly (vmYearRate rates ly)
          (calculate_monthly_payment bal (vmYearRate rates ly) (years - ly + 1)) aOn tup
          0 12 (sy + (ly : Int) - 1) bal = (rows1, fb) from hM] at this
      simpa using this
    dsimp only
    by_cases hfb : fb ≤ 0
    · rw [if_pos hfb]
      omega
    · rw [if_neg hfb]
      simp only [List.length_append]
      have := ih (ly + 1) fb
      omega

end Calculations

/-- C8 counterexample: the simple (uncapped manual-payment) calculator on a
4,300,000 balance at 4 percent with a 1000 payment is still running after
1300 periods — beyond the claimed 1200-period (100-year) safety cap — so no
safety cap stops it. -/
theorem c8_counterexample :
    Calculations.calculate_loan_schedule_simple 2026 1 4300000 (1 / 25) 1000 0 1300 =
      Calculations.RunResult.fuelOut ∧ 1200 < 1300 := by
  refine ⟨?_, by norm_num⟩
  apply Calculations.simpleLoop_stuck (1 / 25) 1000 (by norm_num) 1300
  · norm_num
  · norm_num
  · norm_num
  · norm_num

/-- C8 amended: the term-capped calculated-payment engines do stop within
termYears*12 periods (the standard-mortgage loop is bounded by its period
cap and the variable-rate mortgage runs at most 12 periods for each of at
most termYears loan-years); but the uncapped manual-payment loops have no
safety cap at all: whenever the payment cannot cover even the cheapest
month's interest, neither the simple loop nor the variable-rates manual
loop ever terminates — each exhausts every fuel bound. -/
theorem c8_termination_amended :
    (∀ (sy : Int) (sm : Nat) (debt rate : ℚ) (years : Nat) (aOn : ℚ)
        (tup : Option Calculations.TopUpStrategy) (rows : List Calculations.MortRec)
        (mp : ℚ), 0 ≤ debt →
        Calculations.calculate_standard_mortgage_schedule sy sm debt rate years aOn tup =
          Except.ok (rows, mp) →
        rows.length ≤ years * 12) ∧
    (∀ (sy : Int) (sm : Nat) (debt : ℚ) (rates : List ℚ) (years : Nat) (aOn : ℚ)
        (tup : Option Calculations.TopUpStrategy) (rows : List Calculations.VMRec),
        Calculations.calculate_variable_rate_mortgage_schedule sy sm debt rates years aOn tup =
          Except.ok rows →
        rows.length ≤ years * 12) ∧
    (∀ (sy : Int) (sm : Nat) (debt rate pay : ℚ) (fuel : Nat),
        0 < debt → 1 ≤ sm → sm ≤ 12 → 0 ≤ rate → pay ≤ debt * rate * 28 / 365 →
        Calculations.calculate_loan_schedule_simple sy sm debt rate pay 0 fuel =
          Calculations.RunResult.fuelOut) ∧
    (∀ (sy : Int) (sm : Nat) (debt : ℚ) (rd pd : List (Nat × ℚ)) (ro po : ℚ) (fuel : Nat),
        0 < debt → 1 ≤ sm → sm ≤ 12 →
        (∀ ly, 0 ≤ Calculations.dictGet rd ro ly) →
        (∀ ly, Calculations.dictGet pd po ly ≤ debt * Calculations.dictGet rd ro ly * 28 / 365) →
        Calculations.calculate_loan_schedule_variable_rates sy sm debt rd pd ro po 0 fuel =
          Calculations.RunResult.fuelOut) := by
  refine ⟨?_, ?_, ?_, ?_⟩
  · intro sy sm debt rate years aOn tup rows mp hb heq
    obtain ⟨rows2, sEnd, hok, hlen, -, -, -, -⟩ :=
      Calculations.mortgageLoop_run rate (Calculations.calculate_monthly_payment debt rate years)
        aOn tup (years * 12) { year := sy, month := sm, balance := debt, period := 0 } hb
    rw [Calculations.calculate_standard_mortgage_schedule, hok] at heq
    simp only [Except.ok.injEq, Prod.mk.injEq] at heq
    obtain ⟨rfl, rfl⟩ := heq
    exact hlen
  · intro sy sm debt rates years aOn tup rows heq
    rw [Calculations.calculate_variable_rate_mortgage_schedule] at heq
    by_cases hlen : rates.length ≠ 6
    · rw [if_pos hlen] at heq
      cases heq
    · rw [if_neg hlen] at heq
      simp only [Except.ok.injEq] at heq
      subst heq
      simpa [Nat.mul_comm] using
        Calculations.vmYears_length sy sm rates years aOn tup years 1 debt
  · intro sy sm debt rate pay fuel hpos h1 h2 hr hpay
    exact Calculations.simpleLoop_stuck rate pay hr fuel
      { year := sy, month := sm, balance := debt, period := 0 } hpos h1 h2 hpay
  · intro sy sm debt rd pd ro po fuel hpos h1 h2 hr hpay
    exact Calculations.varLoop_stuck rd pd ro po hr fuel
      { year := sy, month := sm, balance := debt, period := 0, loan_year := 1 }
      hpos h1 h2 hpay

/-- C8 amended witness: both divergence conjuncts at a concrete
insufficient-payment configuration and fuel. -/
theorem c8_termination_amended_witness :
    (0 : ℚ) < 4300000 ∧ (1 : Nat) ≤ 1 ∧ (1 : Nat) ≤ 12 ∧ (0 : ℚ) ≤ 1 / 25 ∧
      (1000 : ℚ) ≤ 4300000 * (1 / 25) * 28 / 365 ∧
      Calculations.calculate_loan_schedule_simple 2026 1 4300000 (1 / 25) 1000 0 2400 =
        Calculations.RunResult.fuelOut ∧
      Calculations.calculate_loan_schedule_variable_rates 2026 1 4300000 [] [] (1 / 25) 1000 0
          2400 =
        Calculations.RunResult.fuelOut :=
  ⟨by norm_num, by norm_num, by norm_num, by norm_num, by norm_num,
    c8_termination_amended.2.2.1 2026 1 4300000 (1 / 25) 1000 2400 (by norm_num) (by norm_num)
      (by norm_num) (by norm_num) (by norm_num),
    c8_termination_amended.2.2.2 2026 1 4300000 [] [] (1 / 25) 1000 2400 (by norm_num)
      (by norm_num) (by norm_num) (fun ly => by norm_num [Calculations.dictGet])
      (fun ly => by norm_num [Calculations.dictGet])⟩

namespace Calculations

/-- Every row of the variable-rate mortgage schedule records the rate
selected for its loan-year (recoverable from its payment number) and the
payment recomputed at that loan-year's start from the balance then
remaining and the remaining years. -/
lemma vmYears_fields (sy : Int) (sm : Nat) (rates : List ℚ) (years : Nat) (aOn : ℚ)
    (tup : Option TopUpStrategy) (debt : ℚ) :
    ∀ (left ly : Nat) (bal : ℚ), 1 ≤ ly → 0 ≤ bal →
    bal = vmBalanceAfterYears sy sm rates years aOn tup debt (ly - 1) →
    ∀ r ∈ vmYears sy sm rates years aOn tup ly left bal,
      r.interest_rate = vmYearRate rates ((r.payment_number - 1) / 12 + 1) ∧
      r.monthly_payment = calculate_monthly_payment
        (vmBalanceAfterYears sy sm rates years aOn tup debt ((r.payment_number - 1) / 12))
        r.interest_rate (years - ((r.payment_number - 1) / 12 + 1) + 1) := by
  intro left
  induction left with
  | zero =>
    intro ly bal hly hb hbal r hr
    rw [vmYears_zero_eq] at hr
    simp at hr
  | succ left ih =>
    intro ly bal hly hb hbal r hr
    rw [vmYears_succ_eq] at hr
    rcases hM : vmYearMonths sy sm rates years aOn tup ly bal with ⟨rows1, fb⟩
    rw [hM] at hr
    dsimp only at hr
    obtain ⟨-, -, -, m4, -, -, -, -, m9⟩ :=
      vmMonths_run sm ly (vmYearRate rates ly)
        (calculate_monthly_payment bal (vmYearRate rates ly) (years - ly + 1)) aOn tup
        12 0 (sy + (ly : Int) - 1) bal hb rows1 fb hM
    have hrow : r ∈ rows1 →
        r.interest_rate = vmYearRate rates ((r.payment_number - 1) / 12 + 1) ∧
        r.monthly_payment = calculate_monthly_payment
          (vmBalanceAfterYears sy sm rates years aOn tup debt ((r.payment_number - 1) / 12))
          r.interest_rate (years - ((r.payment_number - 1) / 12 + 1) + 1) := by
      intro hr1
      obtain ⟨hpay, hrate, -, k, hk0, hk12, hpn⟩ := m9 r hr1
      have hdiv1 : (r.payment_number - 1) / 12 + 1 = ly := by omega
      have hdiv0 : (r.payment_number - 1) / 12 = ly - 1 := by omega
      rw [hdiv1, hdiv0, hrate]
      exact ⟨rfl, by rw [hpay, hbal]⟩
    by_cases hfb0 : fb ≤ 0
    · rw [if_pos hfb0] at hr
      exact hrow hr
    · rw [if_neg hfb0] at hr
      rcases List.mem_append.mp hr with hr1 | hr2
      · exact hrow hr1
      · have hfbB : fb = vmBalanceAfterYears sy sm rates years aOn tup debt ((ly + 1) - 1) := by
          obtain ⟨k0, rfl⟩ : ∃ k0, ly = k0 + 1 := ⟨ly - 1, by omega⟩
          simp only [Nat.add_sub_cancel] at hbal ⊢
          rw [vmBalanceAfterYears, ← hbal]
          have : vmYearStep sy sm rates years aOn tup (k0 + 1) bal = fb := by
            rw [vmYearStep, hM]
          rw [← this]
        exact ih (ly + 1) fb (by omega) m4 hfbB r hr2

end Calculations

/-- C3: variable-rate Calculated payment.  Loan-years 1-5 use the positional
rate entry and every loan-year at least 6 clamps to index 5 (never
re-indexed); every row of the schedule carries the rate of its loan-year
(recovered from its payment number) and the payment
`standardPayment(balance entering that loan-year, rate, termYears - loanYear + 1)`
recomputed at the first period of the loan-year — hence identical for all of
that loan-year's rows. -/
theorem c3_variable_rate_payment_recomputation :
    (∀ y : Nat, 6 ≤ y → (if y ≤ 5 then y - 1 else 5) = 5) ∧
    (∀ (rates : List ℚ) (y : Nat),
        Calculations.vmYearRate rates y = rates.getD (if y ≤ 5 then y - 1 else 5) 0) ∧
    (∀ (sy : Int) (sm : Nat) (debt : ℚ) (rates : List ℚ) (years : Nat) (aOn : ℚ)
        (tup : Option Calculations.TopUpStrategy) (rows : List Calculations.VMRec),
        0 ≤ debt →
        Calculations.calculate_variable_rate_mortgage_schedule sy sm debt rates years aOn tup =
          Except.ok rows →
        ∀ r ∈ rows,
          r.interest_rate = Calculations.vmYearRate rates ((r.payment_number - 1) / 12 + 1) ∧
          r.monthly_payment = Calculations.calculate_monthly_payment
            (Calculations.vmBalanceAfterYears sy sm rates years aOn tup debt
              ((r.payment_number - 1) / 12))
            r.interest_rate (years - ((r.payment_number - 1) / 12 + 1) + 1)) := by
  refine ⟨fun y hy => ?_, fun rates y => rfl, ?_⟩
  · rw [if_neg (by omega)]
  · intro sy sm debt rates years aOn tup rows hb heq
    rw [Calculations.calculate_variable_rate_mortgage_schedule] at heq
    by_cases hlen : rates.length ≠ 6
    · rw [if_pos hlen] at heq
      cases heq
    · rw [if_neg hlen] at heq
      simp only [Except.ok.injEq] at heq
      subst heq
      exact Calculations.vmYears_fields sy sm rates years aOn tup debt years 1 debt
        (le_refl 1) hb rfl

/-- C3 witness: the rate-index clamp at loan-year 7, and the positional index
at loan-year 3, on a concrete rate list. -/
theorem c3_variable_rate_payment_recomputation_witness :
    (6 : Nat) ≤ 7 ∧ (if (7 : Nat) ≤ 5 then 7 - 1 else 5) = 5 ∧
      Calculations.vmYearRate [23 / 1000, 29 / 1000, 35 / 1000, 4495 / 100000, 4495 / 100000,
          5495 / 100000] 7 =
        [(23 : ℚ) / 1000, 29 / 1000, 35 / 1000, 4495 / 100000, 4495 / 100000,
          5495 / 100000].getD (if 7 ≤ 5 then 7 - 1 else 5) 0 :=
  ⟨by norm_num, c3_variable_rate_payment_recomputation.1 7 (by norm_num),
    c3_variable_rate_payment_recomputation.2.1
      [23 / 1000, 29 / 1000, 35 / 1000, 4495 / 100000, 4495 / 100000, 5495 / 100000] 7⟩

namespace Calculations

/-- Unfolding equations of the annuity balance recurrence. -/
lemma annuityBalance_zero (debt r pay : ℚ) : annuityBalance debt r pay 0 = debt := rfl

lemma annuityBalance_succ (debt r pay : ℚ) (k : Nat) :
    annuityBalance debt r pay (k + 1) = annuityBalance debt r pay k * (1 + r) - pay := rfl

/-- When the annuity balance stays positive before period `n`, non-negative
through period `n`, and each period's interest is strictly covered by the
payment, the standard-mortgage loop follows the annuity recurrence exactly:
it emits one row per fuel unit and ends with balance `annuityBalance n`,
recorded in its last row. -/
lemma mortgageLoop_annuity (rate pay debt : ℚ) (n : Nat)
    (hBpos : ∀ k, k < n → 0 < annuityBalance debt (rate / 12) pay k)
    (hBnn : ∀ k, k ≤ n → 0 ≤ annuityBalance debt (rate / 12) pay k)
    (hInt : ∀ k, k < n → annuityBalance debt (rate / 12) pay k * (rate / 12) < pay) :
    ∀ (left : Nat), left ≤ n → ∀ s : MortState,
    s.balance = annuityBalance debt (rate / 12) pay (n - left) →
    ∃ rows sEnd,
      mortgageLoop rate pay 0 Option.none left s = Except.ok (rows, sEnd) ∧
      rows.length = left ∧
      sEnd.balance = annuityBalance debt (rate / 12) pay n ∧
      ((rows = [] ∧ sEnd = s) ∨
        ∃ rl, rows.getLast? = some rl ∧ rl.remaining_principal_balance = sEnd.balance) := by
  intro left
  induction left with
  | zero =>
    intro hle s hsb
    refine ⟨[], s, rfl, rfl, ?_, Or.inl ⟨rfl, rfl⟩⟩
    rw [hsb, Nat.sub_zero]
  | succ left ih =>
    intro hle s hsb
    have hk : n - (left + 1) < n := by omega
    have hk1 : n - (left + 1) + 1 = n - left := by omega
    have hpos : 0 < s.balance := by rw [hsb]; exact hBpos _ hk
    obtain ⟨row, s2, hstep, hrstart, hrrem, hs2bal, hrpp, -, -, -, -, -, -, -, -, -⟩ :=
      mortStep_spec rate pay 0 Option.none s (le_of_lt hpos)
    have havail : pay + calculate_top_up_amount pay Option.none + mortAddOn 0 s = pay := by
      have h1 : calculate_top_up_amount pay Option.none = 0 := rfl
      have h2 : mortAddOn 0 s = 0 := by
        rw [mortAddOn]
        split <;> rfl
      rw [h1, h2, add_zero, add_zero]
    have hIlt : s.balance * (rate / 12) < pay := by
      rw [hsb]; exact hInt _ hk
    have hple : pay - s.balance * (rate / 12) ≤ s.balance := by
      have hrec : annuityBalance debt (rate / 12) pay (n - (left + 1) + 1) =
          annuityBalance debt (rate / 12) pay (n - (left + 1)) * (1 + rate / 12) - pay :=
        annuityBalance_succ debt (rate / 12) pay (n - (left + 1))
      have hnn : 0 ≤ annuityBalance debt (rate / 12) pay (n - (left + 1) + 1) :=
        hBnn _ (by omega)
      rw [hrec] at hnn
      rw [hsb]
      nlinarith [hnn]
    have hpp_eq : row.principal_payment = pay - s.balance * (rate / 12) := by
      rw [hrpp, havail]
      have hI : mortInterest rate s = s.balance * (rate / 12) := rfl
      rw [hI, principalPaymentOf, if_neg (not_le.mpr hIlt)]
      split
      · next hle2 => linarith
      · rfl
    have hs2B : s2.balance = annuityBalance debt (rate / 12) pay (n - left) := by
      rw [← hk1, annuityBalance_succ, hs2bal, hpp_eq, hsb]
      ring
    obtain ⟨rows0, sEnd, hok, hlen, hsend, hlast⟩ := ih (by omega) s2 hs2B
    refine ⟨row :: rows0, sEnd, ?_, by simp [hlen], hsend, ?_⟩
    · simp only [mortgageLoop, hpos, if_true, hstep, hok]
    · right
      rcases hlast with ⟨h0, hse⟩ | ⟨rl, hgl, hrl⟩
      · subst h0
        refine ⟨row, by simp, ?_⟩
        rw [hrrem, hse]
      · cases rows0 with
        | nil => simp at hgl
        | cons b l =>
          rw [List.getLast?_cons_cons]
          exact ⟨rl, hgl, hrl⟩

end Calculations

namespace Calculations

/-- Closed form of the annuity balance when the payment is the standard
annuity payment over `n` periods at per-period rate `r`. -/
lemma annuityBalance_closed (debt r pay : ℚ) (n : Nat) (hD : (1 + r) ^ n - 1 ≠ 0)
    (hpay : pay = debt * (r * (1 + r) ^ n) / ((1 + r) ^ n - 1)) :
    ∀ k, annuityBalance debt r pay k =
      debt * ((1 + r) ^ n - (1 + r) ^ k) / ((1 + r) ^ n - 1) := by
  intro k
  induction k with
  | zero =>
    rw [annuityBalance_zero, pow_zero]
    field_simp
  | succ k ih =>
    rw [annuityBalance_succ, ih, hpay, pow_succ]
    field_simp
    ring

/-- Closed form of the annuity balance at zero rate: straight-line decrease. -/
lemma annuityBalance_zero_rate (debt pay : ℚ) :
    ∀ k : Nat, annuityBalance debt 0 pay k = debt - k * pay := by
  intro k
  induction k with
  | zero =>
    rw [annuityBalance_zero]
    simp
  | succ k ih =>
    rw [annuityBalance_succ, ih]
    push_cast
    ring

end Calculations

/-- C2 amended: for every positive principal, non-negative fixed annual rate
and term of at least one year, the standard-mortgage schedule with zero
yearly add-on and no top-up runs for exactly termYears*12 periods and its
last recorded remaining balance is exactly 0. -/
theorem c2_term_payoff_amended (sy : Int) (sm : Nat) (debt rate : ℚ) (years : Nat)
    (hd : 0 < debt) (hr : 0 ≤ rate) (hy : 1 ≤ years) :
    ∃ rows, Calculations.calculate_standard_mortgage_schedule sy sm debt rate years 0
        Option.none =
        Except.ok (rows, Calculations.calculate_monthly_payment debt rate years) ∧
      rows.length = years * 12 ∧ rows ≠ [] ∧
      ∀ r ∈ rows.getLast?, r.remaining_principal_balance = 0 := by
  have hn : 0 < years * 12 := by omega
  have key :
      (∀ k, k < years * 12 → 0 < Calculations.annuityBalance debt (rate / 12)
        (Calculations.calculate_monthly_payment debt rate years) k) ∧
      (∀ k, k ≤ years * 12 → 0 ≤ Calculations.annuityBalance debt (rate / 12)
        (Calculations.calculate_monthly_payment debt rate years) k) ∧
      (∀ k, k < years * 12 → Calculations.annuityBalance debt (rate / 12)
        (Calculations.calculate_monthly_payment debt rate years) k * (rate / 12) <
        Calculations.calculate_monthly_payment debt rate years) ∧
      Calculations.annuityBalance debt (rate / 12)
        (Calculations.calculate_monthly_payment debt rate years) (years * 12) = 0 := by
    rcases eq_or_lt_of_le hr with hr0 | hrpos
    · have hrz : rate = 0 := hr0.symm
      subst hrz
      have hpay0 : Calculations.calculate_monthly_payment debt 0 years =
          debt / ((years : ℚ) * 12) := by
        rw [Calculations.calculate_monthly_payment, if_pos rfl]
      have hNpos : (0 : ℚ) < (years : ℚ) * 12 := by
        have : (0 : ℚ) < (years : ℚ) := by exact_mod_cast hy
        linarith
      have hz : ∀ k : Nat, Calculations.annuityBalance debt ((0 : ℚ) / 12)
          (Calculations.calculate_monthly_payment debt 0 years) k =
          debt - k * (debt / ((years : ℚ) * 12)) := by
        intro k
        rw [show ((0 : ℚ) / 12) = 0 by norm_num,
          Calculations.annuityBalance_zero_rate debt _ k, hpay0]
      refine ⟨?_, ?_, ?_, ?_⟩
      · intro k hk
        rw [hz k]
        have hkQ : (k : ℚ) < (years : ℚ) * 12 := by exact_mod_cast hk
        have heq : debt - k * (debt / ((years : ℚ) * 12)) =
            debt * ((years : ℚ) * 12 - k) / ((years : ℚ) * 12) := by
          field_simp
          ring
        rw [heq]
        apply div_pos (mul_pos hd (by linarith)) hNpos
      · intro k hk
        rw [hz k]
        have hkQ : (k : ℚ) ≤ (years : ℚ) * 12 := by exact_mod_cast hk
        have heq : debt - k * (debt / ((years : ℚ) * 12)) =
            debt * ((years : ℚ) * 12 - k) / ((years : ℚ) * 12) := by
          field_simp
          ring
        rw [heq]
        apply div_nonneg (mul_nonneg (le_of_lt hd) (by linarith)) (le_of_lt hNpos)
      · intro k hk
        rw [hz k, show ((0 : ℚ) / 12) = 0 by norm_num, mul_zero, hpay0]
        exact div_pos hd hNpos
      · rw [hz (years * 12)]
        push_cast
        field_simp
    · have hrne : rate ≠ 0 := ne_of_gt hrpos
      set r12 := rate / 12 with hr12def
      have hr12 : 0 < r12 := by rw [hr12def]; positivity
      have h1r : 1 < 1 + r12 := by linarith
      have h1rpos : 0 < 1 + r12 := by linarith
      have hX : 1 < (1 + r12) ^ (years * 12) := one_lt_pow₀ h1r (by omega)
      have hDpos : 0 < (1 + r12) ^ (years * 12) - 1 := by linarith
      have hD : (1 + r12) ^ (years * 12) - 1 ≠ 0 := ne_of_gt hDpos
      have hpayf : Calculations.calculate_monthly_payment debt rate years =
          debt * (r12 * (1 + r12) ^ (years * 12)) /
            ((1 + r12) ^ (years * 12) - 1) := by
        rw [Calculations.calculate_monthly_payment, if_neg hrne]
      have hcl := Calculations.annuityBalance_closed debt r12
        (Calculations.calculate_monthly_payment debt rate years) (years * 12) hD hpayf
      refine ⟨?_, ?_, ?_, ?_⟩
      · intro k hk
        rw [hcl k]
        have hYX : (1 + r12) ^ k < (1 + r12) ^ (years * 12) :=
          pow_lt_pow_right₀ h1r hk
        exact div_pos (mul_pos hd (by linarith)) hDpos
      · intro k hk
        rw [hcl k]
        have hYX : (1 + r12) ^ k ≤ (1 + r12) ^ (years * 12) :=
          pow_le_pow_right₀ (le_of_lt h1r) hk
        exact div_nonneg (mul_nonneg (le_of_lt hd) (by linarith)) (le_of_lt hDpos)
      · intro k hk
        have heq : Calculations.calculate_monthly_payment debt rate years -
            Calculations.annuityBalance debt r12
              (Calculations.calculate_monthly_payment debt rate years) k * r12 =
            debt * (r12 * (1 + r12) ^ k) /
              ((1 + r12) ^ (years * 12) - 1) := by
          rw [hcl k, hpayf]
          field_simp
          ring
        have hposx : 0 < debt * (r12 * (1 + r12) ^ k) /
            ((1 + r12) ^ (years * 12) - 1) :=
          div_pos (mul_pos hd (mul_pos hr12 (pow_pos h1rpos k))) hDpos
        linarith
      · rw [hcl (years * 12), sub_self]
        simp
  obtain ⟨hBpos, hBnn, hInt, hBn⟩ := key
  obtain ⟨rows, sEnd, hok, hlen, hsend, hlast⟩ :=
    Calculations.mortgageLoop_annuity rate
      (Calculations.calculate_monthly_payment debt rate years) debt (years * 12)
      hBpos hBnn hInt (years * 12) (le_refl _)
      { year := sy, month := sm, balance := debt, period := 0 }
      (by rw [Nat.sub_self]; rfl)
  refine ⟨rows, ?_, hlen, ?_, ?_⟩
  · rw [Calculations.calculate_standard_mortgage_schedule, hok]
  · intro h
    rw [h] at hlen
    simp at hlen
    omega
  · intro r hrm
    rcases hlast with ⟨h0, -⟩ | ⟨rl, hgl, hrl⟩
    · rw [h0] at hlen
      simp at hlen
      omega
    · rw [hgl] at hrm
      simp only [Option.mem_def, Option.some.injEq] at hrm
      subst hrm
      rw [hrl, hsend, hBn]

/-- C2 amended witness: the 1-year zero-rate schedule on 1200 runs exactly
12 periods and pays off to exactly zero. -/
theorem c2_term_payoff_amended_witness :
    (0 : ℚ) < 1200 ∧ (0 : ℚ) ≤ 0 ∧ (1 : Nat) ≤ 1 ∧
      ∃ rows, Calculations.calculate_standard_mortgage_schedule 2026 1 1200 0 1 0
          Option.none =
          Except.ok (rows, Calculations.calculate_monthly_payment 1200 0 1) ∧
        rows.length = 1 * 12 ∧ rows ≠ [] ∧
        ∀ r ∈ rows.getLast?, r.remaining_principal_balance = 0 :=
  ⟨by norm_num, le_refl 0, le_refl 1,
    c2_term_payoff_amended 2026 1 1200 0 1 (by norm_num) (le_refl 0) (le_refl 1)⟩

/-- C2 counterexample: a valid fixed-rate Calculated-payment configuration
whose yearly add-on (600 on a 1200 principal over 2 years at zero rate)
pays the loan off at period 12 — outside termYears*12 = 24 plus or minus 1 —
so the claim does not hold for every valid configuration. -/
theorem c2_counterexample :
    (Calculations.calculate_standard_mortgage_schedule 2026 1 1200 0 2 600
        Option.none).map (fun x => x.1.length) = Except.ok 12 ∧
    12 + 1 < 2 * 12 := by
  refine ⟨?_, by norm_num⟩
  set_option maxRecDepth 4000 in
  norm_num [Calculations.calculate_standard_mortgage_schedule, Calculations.mortgageLoop,
    Calculations.mortStep, Calculations.calculate_monthly_payment,
    Calculations.calculate_top_up_amount, Calculations.principalPaymentOf,
    Calculations.advanceCalendar, Except.map]
